import Mathlib

/-! The activity engine of `player_activity.cpp`.

A shallow embedding of `src/player_activity.cpp` (Cataclysm-DDA): the activity
record, its accessors, the turn `do_turn` with its time-conversion step, the
progress message, the resume-compatibility test and the distraction filter,
followed by the properties proved about them.

Conventions of the embedding

* A C++ `int` is an `Int`; every arithmetic operation of the source is followed
  by `wrap_int`, the reduction to the 32-bit two's-complement range, and the
  fields of a record are in that range (`is_int`) where a theorem needs it.
* A read outside a `std::vector` (`front()` of an empty vector, the
  three-iterator `std::equal` running past the end of its second range) has no
  defined result: the embedding returns `none` there. The unchecked read
  `coords[0]` of line 230 returns the stale element that the storage of an
  empty vector still holds, when there is one, and has no result otherwise.
* `type->f()` looks the kind up in the registry of `activity_type` descriptors;
  the registry is a parameter `reg : activity_id → activity_type`.
* The functions that `do_turn` calls outside this file are the fields of a
  parameter `ext : collaborators`; a turn returns, with the record and the
  actor, the list of the calls it made. The receiver of `do_turn` is the
  actor's slot `p.activity`, as on the game's call: the record of a turn is the
  content of that slot.
-/

namespace CDDA

/-! ## Machine integers -/

/-- The range of the C++ type `int` (32 bits, two's complement). -/
def is_int (x : Int) : Prop := -2147483648 ≤ x ∧ x ≤ 2147483647

instance (x : Int) : Decidable (is_int x) := by
  unfold is_int
  exact inferInstance

/-- Reduction of an exact result to the range of `int`: what a 32-bit machine
leaves in the register when the exact result does not fit. -/
def wrap_int (x : Int) : Int := (x + 2147483648) % 4294967296 - 2147483648

/-- The `+` of two `int`s. -/
def int_add (a b : Int) : Int := wrap_int (a + b)

/-- The `-` of two `int`s. -/
def int_sub (a b : Int) : Int := wrap_int (a - b)

/-- The `*` of two `int`s. -/
def int_mul (a b : Int) : Int := wrap_int (a * b)

/-- The `/` of two `int`s: the quotient is truncated toward zero. -/
def int_div (a b : Int) : Int := wrap_int (Int.tdiv a b)

/-! ## Data model -/

/-- Modelled from the spec: the kind identifiers (`activity_id` constants of
`cata_string_consts.h`, which is not among the sources). The constants that
`player_activity.cpp` names are pairwise distinct identifiers; `other` stands
for every further kind of the catalogue. `ACT_NULL` is `activity_id::NULL_ID()`. -/
inductive activity_id where
  | ACT_NULL
  | ACT_CRAFT
  | ACT_READ
  | ACT_BURROW
  | ACT_HACKSAW
  | ACT_JACKHAMMER
  | ACT_PICKAXE
  | ACT_DISASSEMBLE
  | ACT_FILL_PIT
  | ACT_DIG
  | ACT_DIG_CHANNEL
  | ACT_CHOP_TREE
  | ACT_CHOP_LOGS
  | ACT_CHOP_PLANKS
  | ACT_BUILD
  | ACT_TRAVELLING
  | ACT_WAIT_STAMINA
  | ACT_CLEAR_RUBBLE
  | other (name : String)
  deriving DecidableEq, Repr

open activity_id

/-- Modelled from the spec: the time basis of a kind (`based_on_type`, declared
in `activity_type.h`, which is not among the sources): elapsed time, the
actor's speed, or neither. -/
inductive based_on_type where
  | TIME
  | SPEED
  | NEITHER
  deriving DecidableEq, Repr

/-- Modelled from the spec: the immutable descriptor of a kind (`activity_type`,
declared in `activity_type.h`, which is not among the sources), with the
accessors that `player_activity.cpp` calls. -/
structure activity_type where
  based_on : based_on_type := based_on_type.SPEED
  rooted : Bool := false
  no_resume : Bool := false
  suspendable : Bool := true
  multi_activity : Bool := false
  will_refuel_fires : Bool := false
  verb : String := ""
  stop_phrase : String := ""
  deriving DecidableEq, Repr

/-- Modelled from the spec: a world coordinate (`tripoint`, declared outside the
sources), three `int`s compared componentwise. -/
structure tripoint where
  x : Int
  y : Int
  z : Int
  deriving DecidableEq, Repr

/-- Modelled from the spec: the sentinel "unset" placement `tripoint_min`, every
component of which is `INT_MIN`. -/
def tripoint_min : tripoint := ⟨-2147483648, -2147483648, -2147483648⟩

/-- Modelled from the spec: a target reference (`item_location`, declared in
`item_location.h`, which is not among the sources): a handle on an item, two
of which are equal when they denote the same item. -/
structure item_location where
  handle : Nat
  deriving DecidableEq, Repr

/-- Modelled from the spec: a distraction category (`distraction_type`, an
enumeration declared outside the sources), by its enumerator's number. -/
structure distraction_type where
  code : Nat
  deriving DecidableEq, Repr

/-- Modelled from the spec: the activity record (`class player_activity`, declared
in `player_activity.h`, which is not among the sources), with the members that
`player_activity.cpp` reads and writes. The defaults make the record of the
default constructor `player_activity()` (line 17): the null kind, no parameter.
`coords_stale` is not a member of the class but the state of the storage of
`coords` that the unchecked read `coords[0]` of line 230 sees when the vector
is empty: the element that an earlier `clear()` left at position 0, or `none`
when the vector has no storage. -/
structure player_activity where
  type : activity_id := ACT_NULL
  moves_total : Int := 0
  moves_left : Int := 0
  index : Int := 0
  position : Int := 0
  name : String := ""
  placement : tripoint := tripoint_min
  auto_resume : Bool := false
  values : List Int := []
  str_values : List String := []
  coords : List tripoint := []
  targets : List item_location := []
  ignored_distractions : Finset distraction_type := ∅
  coords_stale : Option tripoint := none
  deriving DecidableEq

/-- The constructor `player_activity( t, turns, Index, pos, name_in )`. -/
def player_activity.mk_activity (t : activity_id) (turns : Int) (Index : Int)
    (pos : Int) (name_in : String) : player_activity :=
  { type := t, moves_total := turns, moves_left := turns, index := Index,
    position := pos, name := name_in, placement := tripoint_min, auto_resume := false }

/-- Modelled from the spec: the conversion `operator bool` (the `*this` and
`!other` of the source): the record holds an activity, its kind is not null. -/
def player_activity.is_active (a : player_activity) : Bool := decide (a.type ≠ ACT_NULL)

/-- Modelled from the spec: the accessor `id()`, the kind identifier. -/
def player_activity.id (a : player_activity) : activity_id := a.type

/-- The registry of kinds: `type->...` is `(reg type)....`. -/
abbrev activity_registry := activity_id → activity_type

/-- Modelled from the spec: the actor (`player`, declared outside the sources),
by the part of it that `do_turn` reads and writes: the movement budget `moves`,
the stamina and its maximum (`get_stamina()`, `get_stamina_max()`), whether
the actor is an NPC (`is_npc()`), and the backlog of suspended activities. The
slot `p.activity` of the current activity is not a field here: a turn runs on
that slot (the game calls `u.activity.do_turn( u )`, so `*this` is
`p.activity`), and the embedding carries its content as the record that goes
with the actor. -/
structure player where
  moves : Int := 0
  stamina : Int := 0
  stamina_max : Int := 0
  npc : Bool := false
  backlog : List player_activity := []

/-! ## Accessors -/

/-- `player_activity::set_to_null` (the sound effect is outside the model). -/
def player_activity.set_to_null (a : player_activity) : player_activity :=
  { a with type := ACT_NULL }

/-- `player_activity::get_value`. -/
def player_activity.get_value (a : player_activity) (index : Nat) (d : Int) : Int :=
  if h : index < a.values.length then a.values.get ⟨index, h⟩ else d

/-- `player_activity::get_str_value`. -/
def player_activity.get_str_value (a : player_activity) (index : Nat) (d : String) : String :=
  if h : index < a.str_values.length then a.str_values.get ⟨index, h⟩ else d

/-! ## The time-conversion step of `do_turn` (lines 136-152) -/

/-- The step of `do_turn` that turns the actor's movement budget into progress:
the `if( type->based_on() == TIME ) ... else if( ... == SPEED ) ...` statement. -/
def do_turn_convert (reg : activity_registry) (a : player_activity) (p : player) :
    player_activity × player :=
  if (reg a.type).based_on = based_on_type.TIME then
    if 100 ≤ a.moves_left then
      ({ a with moves_left := int_sub a.moves_left 100 }, { p with moves := 0 })
    else
      ({ a with moves_left := 0 },
       { p with moves := int_sub p.moves (int_div (int_mul p.moves a.moves_left) 100) })
  else if (reg a.type).based_on = based_on_type.SPEED then
    if p.moves ≤ a.moves_left then
      ({ a with moves_left := int_sub a.moves_left p.moves }, { p with moves := 0 })
    else
      ({ a with moves_left := 0 }, { p with moves := int_sub p.moves a.moves_left })
  else
    (a, p)

/-! ## The progress message (lines 69-128) -/

/-- Modelled from the spec: what `get_progress_message` reads of the avatar and
of the world through declarations that are not among the sources: the display
name of the item a target denotes (`get_item()` then `tname()`, `none` for a
null item), the reading-progress text of lines 81-95 (empty when one of its
conditions fails), the placement of the avatar's own activity, and the counter
of the partial construction at a placement (`none` when there is none). -/
structure avatar where
  craft_tname : item_location → Option String
  reading_info : item_location → String
  activity_placement : tripoint
  partial_con_counter : tripoint → Option Int

/-- The kinds of the test of lines 97-107. -/
def progress_whitelist : List activity_id :=
  [ACT_BURROW, ACT_HACKSAW, ACT_JACKHAMMER, ACT_PICKAXE, ACT_DISASSEMBLE, ACT_FILL_PIT,
   ACT_DIG, ACT_DIG_CHANNEL, ACT_CHOP_TREE, ACT_CHOP_LOGS, ACT_CHOP_PLANKS]

/-- Line 109: `( ( moves_total - moves_left ) * 100 ) / moves_total` on `int`s. -/
def progress_percentage (moves_total moves_left : Int) : Int :=
  int_div (int_mul (int_sub moves_total moves_left) 100) moves_total

/-- The text `string_format( "%d%%", percentage )`. -/
def format_percent (percentage : Int) : String := toString percentage ++ "%"

/-- Lines 75-123: the text of `extra_info`; `none` when `targets.front()` is
read on an empty `targets`. -/
def extra_info (a : player_activity) (u : avatar) : Option String :=
  if a.type = ACT_CRAFT then
    match a.targets with
    | [] => none
    | t :: _ => some ((u.craft_tname t).getD "")
  else if a.type = ACT_READ then
    match a.targets with
    | [] => none
    | t :: _ => some (u.reading_info t)
  else if 0 < a.moves_total then
    let e1 : String :=
      if a.type ∈ progress_whitelist then
        format_percent (progress_percentage a.moves_total a.moves_left)
      else ""
    if a.type = ACT_BUILD then
      match u.partial_con_counter u.activity_placement with
      | some counter => some (format_percent (int_div (min counter 10000000) 100000))
      | none => some e1
    else some e1
  else some ""

/-- `player_activity::get_progress_message`: the outer `Option` is `none` when
the call reads `targets.front()` of an empty vector, the inner one is the
`cata::optional` that the function returns. Translation is the identity. -/
def player_activity.get_progress_message (reg : activity_registry) (a : player_activity)
    (u : avatar) : Option (Option String) :=
  if a.type = ACT_NULL ∨ (reg a.type).verb = "" then some none
  else
    match extra_info a u with
    | none => none
    | some e =>
      if e = "" then some (some ((reg a.type).verb ++ "…"))
      else some (some ((reg a.type).verb ++ ": " ++ e))

/-! ## Resume compatibility (lines 207-269) -/

/-- The three-iterator `std::equal( first1, last1, first2 )`: it compares the
first range with as many elements of the second, and reads past the end of the
second (`none`) when that one is exhausted first. -/
def std_equal {α : Type} [DecidableEq α] : List α → List α → Option Bool
  | [], _ => some true
  | _ :: _, [] => none
  | x :: xs, y :: ys => if x = y then std_equal xs ys else some false

/-- The template `containers_equal` (lines 207-215): the sizes are compared
before `std::equal` runs. -/
def containers_equal {α : Type} [DecidableEq α] (left right : List α) : Option Bool :=
  if left.length ≠ right.length then some false else std_equal left right

/-- The read `coords[0]` of the receiver at line 230. The source does not test
`coords.empty()`: on an empty vector the read returns the stale element of the
storage and the comparison goes on with it; with no storage there is no
result (`none`). -/
def rubble_first_coord (self : player_activity) : Option tripoint :=
  match self.coords with
  | c :: _ => some c
  | [] => self.coords_stale

/-- Lines 229-232: `some false` is the early `return false`, `some true` falls
through to the generic test, `none` is a read of `coords[0]` without a result. -/
def resume_rule_clear_rubble (self other : player_activity) : Option Bool :=
  match other.coords with
  | [] => some false
  | o :: _ =>
    match rubble_first_coord self with
    | none => none
    | some c => if o ≠ c then some false else some true

/-- Lines 233-246, with the same reading of the result. -/
def resume_rule_read (self other : player_activity) : Option Bool :=
  if self.values.length ≠ other.values.length then some false
  else if other.values.any (fun foo => decide (foo ∉ self.values)) then some false
  else
    match self.targets, other.targets with
    | [], _ => some false
    | _ :: _, [] => some false
    | t :: _, o :: _ => if t ≠ o then some false else some true

/-- Lines 247-265, with the same reading of the result. -/
def resume_rule_dig (self other : player_activity) : Option Bool :=
  if self.placement ≠ other.placement then some false
  else
    match std_equal self.values other.values with
    | none => none
    | some false => some false
    | some true =>
      match std_equal self.str_values other.str_values with
      | none => none
      | some false => some false
      | some true =>
        match std_equal self.coords other.coords with
        | none => none
        | some false => some false
        | some true => some true

/-- The kind-specific part of `can_resume_with` (lines 229-265). -/
def resume_rule (self other : player_activity) : Option Bool :=
  if self.id = ACT_CLEAR_RUBBLE then resume_rule_clear_rubble self other
  else if self.id = ACT_READ then resume_rule_read self other
  else if self.id = ACT_DIG ∨ self.id = ACT_DIG_CHANNEL then resume_rule_dig self other
  else some true

/-- The generic test of lines 267-268. -/
def resume_generic (self other : player_activity) : Bool :=
  !self.auto_resume && decide (self.id = other.id) && decide (self.index = other.index) &&
    decide (self.position = other.position) && decide (self.name = other.name) &&
    decide (self.targets = other.targets)

/-- `player_activity::can_resume_with( other, Character )` on the receiver
`self`; the `Character` argument is unnamed and unused in the source. The
result is `none` when the call reads outside a vector. -/
def player_activity.can_resume_with (reg : activity_registry) (self other : player_activity) :
    Option Bool :=
  if !self.is_active || !other.is_active || (reg self.type).no_resume then some false
  else
    match resume_rule self other with
    | none => none
    | some false => some false
    | some true => some (resume_generic self other)

/-- A sufficient condition for the kind-specific comparisons of `can_resume_with`
to read inside the vectors: for rubble clearing the receiver has a first
coordinate unless the other has none; for the digging kinds none of the three
compared vectors of the receiver is longer than the other's. -/
def reads_in_range (self other : player_activity) : Prop :=
  (self.id = ACT_CLEAR_RUBBLE → other.coords = [] ∨ self.coords ≠ []) ∧
  (self.id = ACT_DIG ∨ self.id = ACT_DIG_CHANNEL →
    self.values.length ≤ other.values.length ∧
    self.str_values.length ≤ other.str_values.length ∧
    self.coords.length ≤ other.coords.length)

instance (self other : player_activity) : Decidable (reads_in_range self other) := by
  unfold reads_in_range
  exact inferInstance

/-! ## The distraction filter (lines 271-291) -/

/-- The order in which a `std::set< distraction_type >` is traversed: by the
number of the enumerator. -/
instance : LinearOrder distraction_type :=
  LinearOrder.lift' distraction_type.code (fun a b h => by
    cases a
    cases b
    simp only [distraction_type.mk.injEq]
    exact h)

/-- `player_activity::is_distraction_ignored`. -/
def player_activity.is_distraction_ignored (a : player_activity) (t : distraction_type) : Bool :=
  decide (t ∈ a.ignored_distractions)

/-- `player_activity::ignore_distraction`: `emplace` adds a category that is not
yet in the set. -/
def player_activity.ignore_distraction (a : player_activity) (t : distraction_type) :
    player_activity :=
  { a with ignored_distractions := insert t a.ignored_distractions }

/-- `player_activity::allow_distractions`. -/
def player_activity.allow_distractions (a : player_activity) : player_activity :=
  { a with ignored_distractions := ∅ }

/-- `player_activity::inherit_distractions`: the loop calls `ignore_distraction`
on each category of the other record, in the order of the set. -/
def player_activity.inherit_distractions (a other : player_activity) : player_activity :=
  (other.ignored_distractions.sort (fun x y => x ≤ y)).foldl
    player_activity.ignore_distraction a

/-! ## The turn (lines 130-205) -/

/-- The calls of `do_turn` on its collaborators, and its assignment of a default
record to the slot `p.activity` (`reset_activity`, line 198), in the order in
which a turn makes them. -/
inductive effect where
  | try_fuel_fire
  | drop_invalid_inventory
  | call_do_turn
  | add_msg_if_player
  | assign_activity (act : player_activity)
  | rooted
  | pause
  | call_finish
  | reset_activity
  | resume_backlog_activity
  deriving DecidableEq

/-- Modelled from the spec: the collaborators of `do_turn`, none of which is
among the sources (section 6 of the spec). The actor's slot is the record of
the turn, so a collaborator that reads or writes the slot takes and returns
the record with the actor: the progress hook of the kind (it may change or
clear the record), the finish hook (its result tells whether it handled the
completion), `assign_activity` (the record in the slot, the actor and the new
activity; it leaves a record in the slot) and `resume_backlog_activity`. The
others act on the actor and leave the slot alone: the fire-refuel side effect,
`rooted`, `pause` and `drop_invalid_inventory`. With them come the
out-of-region query, the draw `one_in( 50 )` of this turn, and the constants of
declarations that are not among the sources either: the moves of one minute
(`to_moves<int>( 1_minutes )`) and the default arguments `Index` and `pos` of
the constructor. -/
structure collaborators where
  try_fuel_fire : player_activity → player → player
  check_outbounds_activity : player → player_activity → Bool
  call_do_turn : player_activity → player → player_activity × player
  call_finish : player_activity → player → Bool × player_activity × player
  one_in_50 : Bool
  assign_activity : player_activity → player → player_activity → player_activity × player
  rooted : player → player
  pause : player → player
  resume_backlog_activity : player_activity → player → player_activity × player
  drop_invalid_inventory : player → player
  minute_moves : Int
  default_index : Int
  default_pos : Int

/-- What a turn leaves: the record in the actor's slot, which is `*this`, the
actor, and the calls made. -/
structure turn_result where
  act : player_activity
  p : player
  trace : List effect

/-- Lines 133-135: the calls made before the time conversion. -/
def do_turn_start_trace (reg : activity_registry) (self : player_activity) : List effect :=
  if self.is_active && (reg self.type).will_refuel_fires then [effect.try_fuel_fire] else []

/-- Lines 133-152: the record and the actor when line 153 records the stamina. -/
def do_turn_start (reg : activity_registry) (ext : collaborators) (self : player_activity)
    (p : player) : player_activity × player :=
  do_turn_convert reg self
    (if self.is_active && (reg self.type).will_refuel_fires then ext.try_fuel_fire self p
     else p)

/-- Line 154: the turn is aborted by the out-of-region check. -/
def do_turn_aborted (reg : activity_registry) (ext : collaborators) (self : player_activity)
    (p : player) : Bool :=
  (do_turn_start reg ext self p).2.npc &&
    ext.check_outbounds_activity (do_turn_start reg ext self p).2 (do_turn_start reg ext self p).1

/-- Line 164: the record and the actor after the progress hook. -/
def do_turn_hooked (reg : activity_registry) (ext : collaborators) (self : player_activity)
    (p : player) : player_activity × player :=
  ext.call_do_turn (do_turn_start reg ext self p).1 (do_turn_start reg ext self p).2

/-- Lines 172-173: the test of the stamina interrupt, on the actor after the
progress hook. -/
def stamina_interrupt (travel_activity : Bool) (previous_stamina : Int) (p : player) : Bool :=
  decide ((if travel_activity then int_sub p.stamina 1 else p.stamina) < previous_stamina) &&
    decide (p.stamina < int_div p.stamina_max 3)

/-- Lines 178-179: the record `new_act`. -/
def wait_stamina_activity (ext : collaborators) (p : player) : player_activity :=
  { player_activity.mk_activity ACT_WAIT_STAMINA ext.minute_moves ext.default_index
      ext.default_pos "" with
    values := (player_activity.mk_activity ACT_WAIT_STAMINA ext.minute_moves ext.default_index
      ext.default_pos "").values ++ [int_add 200 (int_div p.stamina_max 3)] }

/-- Lines 183-186: the actor after the rooted effect, when it applies. -/
def do_turn_rooted (reg : activity_registry) (ext : collaborators) (a : player_activity)
    (p : player) : player :=
  if a.is_active && (reg a.type).rooted then ext.pause (ext.rooted p) else p

/-- Lines 183-186: the calls of the rooted effect. -/
def do_turn_rooted_trace (reg : activity_registry) (a : player_activity) : List effect :=
  if a.is_active && (reg a.type).rooted then [effect.rooted, effect.pause] else []

/-- Lines 188-195: the completion check: the record, the actor and the calls
made. A finish hook that returns false leaves the record to be cleared here. -/
def do_turn_completion (ext : collaborators) (a : player_activity) (p : player) :
    player_activity × player × List effect :=
  if a.is_active && decide (a.moves_left ≤ 0) then
    match ext.call_finish a p with
    | (true, a5, p5) => (a5, p5, [effect.call_finish])
    | (false, a5, p5) => (a5.set_to_null, p5, [effect.call_finish])
  else (a, p, [])

/-- Lines 183-204: the end of a turn that is neither aborted nor interrupted.
When the record is empty at line 196, line 198 puts a default record in the
slot, and so in `*this`; the backlog step then runs on that slot and may put a
suspended activity back into it. -/
def do_turn_finish (reg : activity_registry) (ext : collaborators) (a : player_activity)
    (p : player) : turn_result :=
  let s5 := do_turn_completion ext a (do_turn_rooted reg ext a p)
  if !s5.1.is_active then
    { act := (ext.resume_backlog_activity {} s5.2.1).1
      p := ext.drop_invalid_inventory (ext.resume_backlog_activity {} s5.2.1).2
      trace := do_turn_rooted_trace reg a ++ s5.2.2 ++ [effect.reset_activity,
        effect.resume_backlog_activity, effect.drop_invalid_inventory] }
  else
    { act := s5.1, p := s5.2.1, trace := do_turn_rooted_trace reg a ++ s5.2.2 }

/-- `player_activity::do_turn( player &p )`, statement by statement, on the
game's call `p.activity.do_turn( p )`: the receiver `*this` is the actor's
slot, `self` is its content on entry, and the record of the result is its
content when the turn returns. On the interrupted path `assign_activity`
receives the slot with `auto_resume` set (line 177) and leaves the record of
the result in it. -/
def player_activity.do_turn (reg : activity_registry) (ext : collaborators)
    (self : player_activity) (p : player) : turn_result :=
  let s := do_turn_start reg ext self p
  let previous_stamina := s.2.stamina
  if s.2.npc && ext.check_outbounds_activity s.2 s.1 then
    { act := s.1.set_to_null
      p := ext.drop_invalid_inventory s.2
      trace := do_turn_start_trace reg self ++ [effect.drop_invalid_inventory] }
  else
    let travel_activity : Bool := decide (s.1.id = ACT_TRAVELLING)
    let h := ext.call_do_turn s.1 s.2
    if stamina_interrupt travel_activity previous_stamina h.2 then
      { act := (ext.assign_activity { h.1 with auto_resume := true } h.2
          (wait_stamina_activity ext h.2)).1
        p := (ext.assign_activity { h.1 with auto_resume := true } h.2
          (wait_stamina_activity ext h.2)).2
        trace := do_turn_start_trace reg self ++ [effect.call_do_turn] ++
          (if ext.one_in_50 then [effect.add_msg_if_player] else []) ++
          [effect.assign_activity (wait_stamina_activity ext h.2)] }
    else
      { act := (do_turn_finish reg ext h.1 h.2).act
        p := (do_turn_finish reg ext h.1 h.2).p
        trace := do_turn_start_trace reg self ++ [effect.call_do_turn] ++
          (do_turn_finish reg ext h.1 h.2).trace }

/-! ## Example data -/

/-- The registry of the examples: reading and stamina recovery run on elapsed
time, every other kind on the actor's speed; the null kind has no verb, and no
kind forbids resumption. -/
def example_registry : activity_registry := fun t =>
  if t = ACT_READ ∨ t = ACT_WAIT_STAMINA then
    { based_on := based_on_type.TIME, verb := "reading" }
  else if t = ACT_DIG ∨ t = ACT_DIG_CHANNEL then
    { based_on := based_on_type.SPEED, verb := "digging" }
  else if t = ACT_NULL then {}
  else { based_on := based_on_type.SPEED, verb := "working" }

/-- The avatar of the examples: nothing is known about items or sites. -/
def example_avatar : avatar :=
  { craft_tname := fun _ => none, reading_info := fun _ => "",
    activity_placement := tripoint_min, partial_con_counter := fun _ => none }

/-- A burrowing activity just constructed by the actor. -/
def burrow_fresh : player_activity := { type := ACT_BURROW, moves_total := 500, moves_left := 500 }

/-- The same activity marked as paused by exhaustion. -/
def burrow_paused : player_activity := { burrow_fresh with auto_resume := true }

/-- A reading session on book 7 with the participants `vs`. -/
def read_session (vs : List Int) : player_activity :=
  { type := ACT_READ, moves_total := 300, moves_left := 300, values := vs, targets := [⟨7⟩] }

/-- A digging activity with the integer parameters `vs` and the coordinates `cs`. -/
def dig_at (vs : List Int) (cs : List tripoint) : player_activity :=
  { type := ACT_DIG, moves_total := 1000, moves_left := 400, placement := ⟨1, 2, 0⟩,
    values := vs, coords := cs }

/-- A channel-digging activity at the same site as `dig_at`. -/
def dig_channel_at (vs : List Int) (cs : List tripoint) : player_activity :=
  { dig_at vs cs with type := ACT_DIG_CHANNEL }

/-- A rubble-clearing activity on the coordinates `cs`. -/
def rubble_at (cs : List tripoint) : player_activity :=
  { type := ACT_CLEAR_RUBBLE, moves_total := 200, moves_left := 200, coords := cs }

/-- Modelled from the spec: collaborators for the examples. Digging costs 400
stamina a turn and no other progress hook does anything; no kind has a finish
function; a target is out of the loaded region from `x = 132` on;
`assign_activity` pushes the activity of the slot on the backlog and installs
the new one; `resume_backlog_activity` puts the front of the backlog back
into the slot when it is marked `auto_resume`; a minute is 6000 moves. -/
def example_collaborators : collaborators :=
  { try_fuel_fire := fun _ p => p
    check_outbounds_activity := fun _ a => decide (132 ≤ a.placement.x)
    call_do_turn := fun a p =>
      if a.type = ACT_DIG then (a, { p with stamina := p.stamina - 400 }) else (a, p)
    call_finish := fun a p => (false, a, p)
    one_in_50 := false
    assign_activity := fun slot p act =>
      (act, { p with backlog := if slot.is_active then slot :: p.backlog else p.backlog })
    rooted := fun p => p
    pause := fun p => { p with moves := 0 }
    resume_backlog_activity := fun slot p =>
      match p.backlog with
      | [] => (slot, p)
      | b :: bs => if b.auto_resume then (b, { p with backlog := bs }) else (slot, p)
    drop_invalid_inventory := fun p => p
    minute_moves := 6000
    default_index := -1
    default_pos := -2147483648 }

/-- A journey of the actor: travelling sets a destination and costs no stamina
in `do_turn` itself. -/
def travel_to (dest : tripoint) : player_activity :=
  { type := ACT_TRAVELLING, moves_total := 100, moves_left := 100, placement := dest }

/-- A digging activity that the engine paused on exhaustion. -/
def dig_paused : player_activity := { dig_at [] [] with auto_resume := true }

/-! ## Properties -/

/-- An exact result inside the range of `int` is left as it is. -/
theorem wrap_int_of_is_int {x : Int} (h : is_int x) : wrap_int x = x := by
  unfold is_int at h
  unfold wrap_int
  omega

/-- Every result of the machine arithmetic is an `int`. -/
theorem is_int_wrap_int (x : Int) : is_int (wrap_int x) := by
  unfold is_int wrap_int
  omega

/-- C1: with time basis TIME and at least 100 moves left, the step takes exactly
100 off `moves_left` and zeroes the budget, whatever the budget on entry (so
for every positive one). -/
theorem do_turn_convert_time_full (reg : activity_registry) (a : player_activity)
    (p : player) (hT : (reg a.type).based_on = based_on_type.TIME)
    (hr : is_int a.moves_left) (h100 : 100 ≤ a.moves_left) :
    (do_turn_convert reg a p).1.moves_left = a.moves_left - 100 ∧
      (do_turn_convert reg a p).2.moves = 0 := by
  have hw : wrap_int (a.moves_left - 100) = a.moves_left - 100 := by
    apply wrap_int_of_is_int
    unfold is_int at hr ⊢
    omega
  simp [do_turn_convert, hT, h100, int_sub, hw]

/-- C1 at `moves_left = 250`, budget 80: 150 moves are left and the budget is 0. -/
theorem do_turn_convert_time_full_witness :
    (do_turn_convert example_registry
        { type := ACT_READ, moves_total := 300, moves_left := 250 } { moves := 80 }).1.moves_left
        = 250 - 100 ∧
      (do_turn_convert example_registry
        { type := ACT_READ, moves_total := 300, moves_left := 250 } { moves := 80 }).2.moves
        = 0 :=
  do_turn_convert_time_full example_registry
    { type := ACT_READ, moves_total := 300, moves_left := 250 } { moves := 80 }
    (by decide) (by decide) (by decide)

/-- `std_equal` reads inside its second range when the first is not longer. -/
theorem std_equal_ne_none {α : Type} [DecidableEq α] :
    ∀ (xs ys : List α), xs.length ≤ ys.length → std_equal xs ys ≠ none
  | [], _, _ => by simp [std_equal]
  | _ :: _, [], h => by simp at h
  | x :: xs, y :: ys, h => by
    have ih := std_equal_ne_none xs ys (by simpa using h)
    by_cases hxy : x = y
    · simpa [std_equal, hxy] using ih
    · simp [std_equal, hxy]

/-- On ranges of one length `std_equal` is equality of the sequences. -/
theorem std_equal_of_length_eq {α : Type} [DecidableEq α] :
    ∀ (xs ys : List α), xs.length = ys.length → std_equal xs ys = some (decide (xs = ys))
  | [], [], _ => by simp [std_equal]
  | [], _ :: _, h => by simp at h
  | _ :: _, [], h => by simp at h
  | x :: xs, y :: ys, h => by
    have ih := std_equal_of_length_eq xs ys (by simpa using h)
    by_cases hxy : x = y
    · simp [std_equal, hxy, ih]
    · simp [std_equal, hxy]

/-- `containers_equal` never reads outside a vector and decides equality. -/
theorem containers_equal_eq {α : Type} [DecidableEq α] (left right : List α) :
    containers_equal left right = some (decide (left = right)) := by
  unfold containers_equal
  by_cases h : left.length = right.length
  · rw [if_neg (not_not.mpr h), std_equal_of_length_eq left right h]
  · have hne : left ≠ right := fun e => h (congrArg List.length e)
    rw [if_pos h]
    simp [hne]

/-- Under `reads_in_range` the kind-specific rule reads inside the vectors. -/
theorem resume_rule_ne_none (self other : player_activity) (h : reads_in_range self other) :
    resume_rule self other ≠ none := by
  obtain ⟨hr, hd⟩ := h
  unfold resume_rule
  by_cases h1 : self.id = ACT_CLEAR_RUBBLE
  · rw [if_pos h1]
    unfold resume_rule_clear_rubble
    rcases hr h1 with ho | hs
    · simp [ho]
    · cases hoc : other.coords with
      | nil => simp
      | cons o os =>
        cases hsc : self.coords with
        | nil => exact absurd hsc hs
        | cons c cs =>
          by_cases hoc2 : o = c <;> simp [rubble_first_coord, hsc, hoc2]
  · rw [if_neg h1]
    by_cases h2 : self.id = ACT_READ
    · rw [if_pos h2]
      unfold resume_rule_read
      split
      · simp
      · split
        · simp
        · split
          · simp
          · simp
          · split <;> simp
    · rw [if_neg h2]
      by_cases h3 : self.id = ACT_DIG ∨ self.id = ACT_DIG_CHANNEL
      · rw [if_pos h3]
        obtain ⟨hv, hs, hc⟩ := hd h3
        have e1 := std_equal_ne_none _ _ hv
        have e2 := std_equal_ne_none _ _ hs
        have e3 := std_equal_ne_none _ _ hc
        unfold resume_rule_dig
        split
        · simp
        · cases hq1 : std_equal self.values other.values with
          | none => exact absurd hq1 e1
          | some b1 =>
            cases b1 with
            | false => simp
            | true =>
              cases hq2 : std_equal self.str_values other.str_values with
              | none => exact absurd hq2 e2
              | some b2 =>
                cases b2 with
                | false => simp
                | true =>
                  cases hq3 : std_equal self.coords other.coords with
                  | none => exact absurd hq3 e3
                  | some b3 => cases b3 <;> simp
      · rw [if_neg h3]
        simp

/-- C3, the claim at a concrete pair: the backlogged argument is marked
`auto_resume`, the receiver is not, and the call returns true. -/
theorem can_resume_with_other_auto_resume_counterexample :
    burrow_paused.auto_resume = true ∧
      burrow_fresh.can_resume_with example_registry burrow_paused = some true := by
  decide

/-- C3 as amended: it is the receiver's `auto_resume` that the test reads. When
it is set the call never returns true, and it returns false whenever the
kind-specific comparisons read inside the vectors. -/
theorem can_resume_with_receiver_auto_resume (reg : activity_registry)
    (self other : player_activity) (h : self.auto_resume = true) :
    self.can_resume_with reg other ≠ some true ∧
      (reads_in_range self other → self.can_resume_with reg other = some false) := by
  have hg : resume_generic self other = false := by simp [resume_generic, h]
  unfold player_activity.can_resume_with
  split
  · simp
  · refine ⟨?_, ?_⟩
    · cases hq : resume_rule self other with
      | none => simp
      | some b => cases b <;> simp [hg]
    · intro hr
      cases hq : resume_rule self other with
      | none => exact absurd hq (resume_rule_ne_none self other hr)
      | some b => cases b <;> simp [hg]

/-- C3 as amended, at the pair of the counterexample with the roles exchanged:
the receiver is the paused record and the call returns false. -/
theorem can_resume_with_receiver_auto_resume_witness :
    burrow_paused.can_resume_with example_registry burrow_fresh = some false :=
  (can_resume_with_receiver_auto_resume example_registry burrow_paused burrow_fresh
    (by decide)).2 (by decide)

/-- The rejections of lines 225-227 and of the identifier comparison of line
267: an empty receiver or argument gives false at once; differing identifiers
never give true, and give false whenever the kind-specific comparisons read
inside the vectors. -/
theorem can_resume_with_rejects (reg : activity_registry) (self other : player_activity) :
    (self.type = ACT_NULL → self.can_resume_with reg other = some false) ∧
    (other.type = ACT_NULL → self.can_resume_with reg other = some false) ∧
    (self.id ≠ other.id → self.can_resume_with reg other ≠ some true ∧
      (reads_in_range self other → self.can_resume_with reg other = some false)) := by
  refine ⟨?_, ?_, ?_⟩
  · intro h
    simp [player_activity.can_resume_with, player_activity.is_active, h]
  · intro h
    simp [player_activity.can_resume_with, player_activity.is_active, h]
  · intro h
    have hg : resume_generic self other = false := by simp [resume_generic, h]
    unfold player_activity.can_resume_with
    split
    · simp
    · refine ⟨?_, ?_⟩
      · cases hq : resume_rule self other with
        | none => simp
        | some b => cases b <;> simp [hg]
      · intro hr
        cases hq : resume_rule self other with
        | none => exact absurd hq (resume_rule_ne_none self other hr)
        | some b => cases b <;> simp [hg]

/-- C4 at a failing input: a digging receiver with one integer parameter and a
channel-digging argument without any, at the same site, have different
identifiers, and the call reads `other.values` past its end (line 254) before
it compares them (line 267). -/
theorem can_resume_with_mismatch_reads_past_end :
    (dig_at [5] []).id ≠ (dig_channel_at [] []).id ∧
      (dig_at [5] []).can_resume_with example_registry (dig_channel_at [] []) = none := by
  decide

/-- C5: two reading records that agree on the generic fields and have a target
resume when the argument's participants are a reordering of the receiver's,
and do not when one of them is not among the receiver's. The argument's
`auto_resume` is not read. -/
theorem can_resume_with_read_perm (reg : activity_registry) (self other : player_activity)
    (hs : self.type = ACT_READ) (ho : other.type = ACT_READ)
    (hn : (reg self.type).no_resume = false) (ha : self.auto_resume = false)
    (hi : self.index = other.index) (hp : self.position = other.position)
    (hname : self.name = other.name) (ht : self.targets = other.targets)
    (hne : self.targets ≠ []) :
    (other.values.Perm self.values → self.can_resume_with reg other = some true) ∧
    ((∃ x ∈ other.values, x ∉ self.values) → self.can_resume_with reg other = some false) := by
  have hrule : resume_rule self other = resume_rule_read self other := by
    simp [resume_rule, player_activity.id, hs]
  have hgen : resume_generic self other = true := by
    simp [resume_generic, player_activity.id, hs, ho, ha, hi, hp, hname, ht]
  have hguard : (!self.is_active || !other.is_active || (reg self.type).no_resume) = false := by
    rw [hn]
    simp [player_activity.is_active, hs, ho]
  refine ⟨?_, ?_⟩
  · intro hperm
    have hlen : self.values.length = other.values.length := hperm.length_eq.symm
    have hall : other.values.any (fun foo => decide (foo ∉ self.values)) = false := by
      simp only [List.any_eq_false, decide_eq_true_eq, not_not]
      intro x hx
      exact hperm.subset hx
    have hread : resume_rule_read self other = some true := by
      unfold resume_rule_read
      rw [if_neg (by simpa using hlen), hall, ← ht]
      cases hts : self.targets with
      | nil => exact absurd hts hne
      | cons t ts => simp
    simp [player_activity.can_resume_with, hguard, hrule, hread, hgen]
  · rintro ⟨x, hx, hnx⟩
    have hread : resume_rule_read self other = some false := by
      unfold resume_rule_read
      by_cases hlen : self.values.length ≠ other.values.length
      · rw [if_pos hlen]
      · rw [if_neg hlen]
        have hany : other.values.any (fun foo => decide (foo ∉ self.values)) = true := by
          simp only [List.any_eq_true, decide_eq_true_eq]
          exact ⟨x, hx, hnx⟩
        rw [if_pos hany]
    simp [player_activity.can_resume_with, hguard, hrule, hread]

/-- C5 at the participants `[1, 2]` against `[2, 1]` (resumed) and against
`[1, 3]` (not resumed). -/
theorem can_resume_with_read_perm_witness :
    (read_session [1, 2]).can_resume_with example_registry (read_session [2, 1]) = some true ∧
    (read_session [1, 2]).can_resume_with example_registry (read_session [1, 3]) = some false :=
  ⟨(can_resume_with_read_perm example_registry (read_session [1, 2]) (read_session [2, 1])
      rfl rfl (by decide) rfl rfl rfl rfl rfl (by decide)).1 (List.Perm.swap 1 2 []),
   (can_resume_with_read_perm example_registry (read_session [1, 2]) (read_session [1, 3])
      rfl rfl (by decide) rfl rfl rfl rfl rfl (by decide)).2 ⟨3, by decide, by decide⟩⟩

/-- What the reading rule guarantees when it lets a pair through: equal sizes,
every participant of the argument among the receiver's, and equal first
targets; so equal sets of participants when the argument's are distinct. -/
theorem can_resume_with_read_nodup (reg : activity_registry) (self other : player_activity)
    (hs : self.type = ACT_READ) (h : self.can_resume_with reg other = some true) :
    self.values.length = other.values.length ∧
    (∀ x, x ∈ other.values → x ∈ self.values) ∧
    (other.values.Nodup → ∀ x, x ∈ self.values ↔ x ∈ other.values) ∧
    (∃ t ts os, self.targets = t :: ts ∧ other.targets = t :: os) := by
  have hrule : resume_rule self other = resume_rule_read self other := by
    simp [resume_rule, player_activity.id, hs]
  unfold player_activity.can_resume_with at h
  split at h
  · simp at h
  · rw [hrule] at h
    have hread : resume_rule_read self other = some true := by
      cases hq : resume_rule_read self other with
      | none => simp [hq] at h
      | some b =>
        cases b with
        | false => simp [hq] at h
        | true => rfl
    unfold resume_rule_read at hread
    by_cases hlen : self.values.length ≠ other.values.length
    · simp [hlen] at hread
    · rw [if_neg hlen] at hread
      have hlen2 : self.values.length = other.values.length := not_not.mp hlen
      by_cases hany : other.values.any (fun foo => decide (foo ∉ self.values)) = true
      · rw [if_pos hany] at hread
        simp at hread
      · rw [if_neg hany] at hread
        have hsub : ∀ x, x ∈ other.values → x ∈ self.values := by
          intro x hx
          by_contra hnx
          apply hany
          simp only [List.any_eq_true, decide_eq_true_eq]
          exact ⟨x, hx, hnx⟩
        refine ⟨hlen2, hsub, ?_, ?_⟩
        · intro hnd x
          have hperm : other.values.Perm self.values :=
            (List.subperm_of_subset hnd hsub).perm_of_length_le (le_of_eq hlen2)
          exact ⟨fun hx => hperm.symm.subset hx, hsub x⟩
        · cases hts : self.targets with
          | nil => simp [hts] at hread
          | cons t ts =>
            cases hos : other.targets with
            | nil => simp [hts, hos] at hread
            | cons o os =>
              by_cases hto : t = o
              · exact ⟨t, ts, os, rfl, by rw [hto]⟩
              · simp [hts, hos, hto] at hread

/-- C6 at a failing input: the receiver's participants are `[1, 2]`, the
argument's `[1, 1]`; participant 2 is in one set only, and the call returns
true. -/
theorem can_resume_with_read_repeated_participant :
    (read_session [1, 2]).can_resume_with example_registry (read_session [1, 1]) = some true ∧
      (2 : Int) ∈ (read_session [1, 2]).values ∧ (2 : Int) ∉ (read_session [1, 1]).values := by
  decide

/-- A true result of `std_equal` says that the first range is a prefix of the
second one, not that the two are equal. -/
theorem std_equal_prefix_of_true {α : Type} [DecidableEq α] :
    ∀ (xs ys : List α), std_equal xs ys = some true → xs <+: ys
  | [], ys, _ => List.nil_prefix
  | _ :: _, [], h => by simp [std_equal] at h
  | x :: xs, y :: ys, h => by
    by_cases hxy : x = y
    · rw [std_equal, if_pos hxy] at h
      rw [hxy]
      exact (List.prefix_cons_inj y).mpr (std_equal_prefix_of_true xs ys h)
    · simp [std_equal, hxy] at h

/-- C7 at a failing input: a digging receiver without integer parameters and an
argument with `values = [5]`, equal otherwise; the vectors differ in length and
the call returns true. -/
theorem can_resume_with_dig_prefix_accepted :
    (dig_at [] [⟨1, 2, 0⟩]).can_resume_with example_registry (dig_at [5] [⟨1, 2, 0⟩]) = some true ∧
      (dig_at [] [⟨1, 2, 0⟩]).values ≠ (dig_at [5] [⟨1, 2, 0⟩]).values := by
  decide

/-- C8: for a receiver of a kind without a kind-specific rule the call always
returns, and returns true exactly when both records are non-empty, the
receiver's kind does not forbid resumption, the receiver's `auto_resume` is
false, and identifier, index, position, name and targets are equal. -/
theorem can_resume_with_generic (reg : activity_registry) (self other : player_activity)
    (h1 : self.id ≠ ACT_CLEAR_RUBBLE) (h2 : self.id ≠ ACT_READ) (h3 : self.id ≠ ACT_DIG)
    (h4 : self.id ≠ ACT_DIG_CHANNEL) :
    (self.can_resume_with reg other = some true ↔
      (self.type ≠ ACT_NULL ∧ other.type ≠ ACT_NULL ∧ (reg self.type).no_resume = false ∧
        self.auto_resume = false ∧ self.id = other.id ∧ self.index = other.index ∧
        self.position = other.position ∧ self.name = other.name ∧
        self.targets = other.targets)) ∧
    (self.can_resume_with reg other = some true ∨
      self.can_resume_with reg other = some false) := by
  have hrule : resume_rule self other = some true := by
    simp [resume_rule, h1, h2, h3, h4]
  unfold player_activity.can_resume_with
  rw [hrule]
  by_cases hg : (!self.is_active || !other.is_active || (reg self.type).no_resume) = true
  · rw [if_pos hg]
    refine ⟨?_, Or.inr rfl⟩
    constructor
    · intro h
      simp at h
    · rintro ⟨ha, hb, hc, -⟩
      simp [player_activity.is_active, ha, hb, hc] at hg
  · rw [if_neg hg]
    simp only [Bool.or_eq_true, Bool.not_eq_true', not_or, Bool.not_eq_false,
      Bool.not_eq_true] at hg
    obtain ⟨⟨ha, hb⟩, hc⟩ := hg
    have ha2 : self.type ≠ ACT_NULL := by simpa [player_activity.is_active] using ha
    have hb2 : other.type ≠ ACT_NULL := by simpa [player_activity.is_active] using hb
    refine ⟨?_, ?_⟩
    · simp only [Option.some.injEq, resume_generic, Bool.and_eq_true, Bool.not_eq_true',
        decide_eq_true_eq]
      constructor
      · rintro ⟨⟨⟨⟨⟨e1, e2⟩, e3⟩, e4⟩, e5⟩, e6⟩
        exact ⟨ha2, hb2, hc, e1, e2, e3, e4, e5, e6⟩
      · rintro ⟨-, -, -, e1, e2, e3, e4, e5, e6⟩
        exact ⟨⟨⟨⟨⟨e1, e2⟩, e3⟩, e4⟩, e5⟩, e6⟩
    · cases resume_generic self other
      · exact Or.inr rfl
      · exact Or.inl rfl

/-- C8 at two burrowing records: the fresh one resumes with itself, the paused
one as receiver does not. -/
theorem can_resume_with_generic_witness :
    burrow_fresh.can_resume_with example_registry burrow_fresh = some true ∧
      ¬ burrow_paused.can_resume_with example_registry burrow_fresh = some true :=
  ⟨(can_resume_with_generic example_registry burrow_fresh burrow_fresh (by decide) (by decide)
      (by decide) (by decide)).1.mpr (by decide),
   fun h => absurd ((can_resume_with_generic example_registry burrow_paused burrow_fresh
      (by decide) (by decide) (by decide) (by decide)).1.mp h).2.2.2.1 (by decide)⟩

/-- What the digging rule guarantees when it lets a pair through: equal
placements, and each compared vector of the receiver a prefix of the other's;
so equal vectors when the lengths agree. -/
theorem can_resume_with_dig_prefix_of_true (reg : activity_registry) (self other : player_activity)
    (hk : self.id = ACT_DIG ∨ self.id = ACT_DIG_CHANNEL)
    (h : self.can_resume_with reg other = some true) :
    self.placement = other.placement ∧ self.values <+: other.values ∧
      self.str_values <+: other.str_values ∧ self.coords <+: other.coords := by
  have hrule : resume_rule self other = resume_rule_dig self other := by
    rcases hk with hk | hk <;> simp [resume_rule, hk]
  unfold player_activity.can_resume_with at h
  split at h
  · simp at h
  · rw [hrule] at h
    have hdig : resume_rule_dig self other = some true := by
      cases hq : resume_rule_dig self other with
      | none => simp [hq] at h
      | some b =>
        cases b with
        | false => simp [hq] at h
        | true => rfl
    unfold resume_rule_dig at hdig
    by_cases hpl : self.placement ≠ other.placement
    · simp [hpl] at hdig
    · rw [if_neg hpl] at hdig
      cases hq1 : std_equal self.values other.values with
      | none => simp [hq1] at hdig
      | some b1 =>
        cases b1 with
        | false => simp [hq1] at hdig
        | true =>
          cases hq2 : std_equal self.str_values other.str_values with
          | none => simp [hq1, hq2] at hdig
          | some b2 =>
            cases b2 with
            | false => simp [hq1, hq2] at hdig
            | true =>
              cases hq3 : std_equal self.coords other.coords with
              | none => simp [hq1, hq2, hq3] at hdig
              | some b3 =>
                cases b3 with
                | false => simp [hq1, hq2, hq3] at hdig
                | true =>
                  exact ⟨not_not.mp hpl, std_equal_prefix_of_true _ _ hq1,
                    std_equal_prefix_of_true _ _ hq2, std_equal_prefix_of_true _ _ hq3⟩

/-! ### Accessors -/

/-- C9: `get_value` and `get_str_value` are total; inside the container they
return the stored element, from its size on the supplied default (so always the
default on a record without parameters). -/
theorem get_value_get_str_value (a : player_activity) (index : Nat) (d : Int) (ds : String) :
    (∀ h : index < a.values.length, a.get_value index d = a.values.get ⟨index, h⟩) ∧
    (a.values.length ≤ index → a.get_value index d = d) ∧
    (∀ h : index < a.str_values.length,
      a.get_str_value index ds = a.str_values.get ⟨index, h⟩) ∧
    (a.str_values.length ≤ index → a.get_str_value index ds = ds) := by
  refine ⟨?_, ?_, ?_, ?_⟩
  · intro h
    simp [player_activity.get_value, h]
  · intro h
    simp [player_activity.get_value, Nat.not_lt.mpr h]
  · intro h
    simp [player_activity.get_str_value, h]
  · intro h
    simp [player_activity.get_str_value, Nat.not_lt.mpr h]

/-- C9 on a digging record with `values = [4, 9]` and no string parameter: slot 1
holds 9, slot 2 and every string slot give the default. -/
theorem get_value_get_str_value_witness :
    (dig_at [4, 9] []).get_value 1 0 = 9 ∧ (dig_at [4, 9] []).get_value 2 (-1) = -1 ∧
      (dig_at [4, 9] []).get_str_value 0 "none" = "none" :=
  ⟨(get_value_get_str_value (dig_at [4, 9] []) 1 0 "").1 (by decide),
   (get_value_get_str_value (dig_at [4, 9] []) 2 (-1) "").2.1 (by decide),
   (get_value_get_str_value (dig_at [4, 9] []) 0 0 "none").2.2.2 (by decide)⟩

/-! ### The progress message -/

/-- A truncated quotient by a positive divisor stays in the range of `int`. -/
theorem is_int_tdiv {x b : Int} (hx : is_int x) (hb : 0 < b) : is_int (x.tdiv b) := by
  unfold is_int at hx ⊢
  rcases le_or_lt 0 x with h0 | h0
  · have e : x.tdiv b = x / b := Int.tdiv_eq_ediv h0 (le_of_lt hb)
    have l1 : 0 ≤ x / b := Int.ediv_nonneg h0 (le_of_lt hb)
    have l2 : x / b ≤ x := Int.ediv_le_self b h0
    omega
  · have hn : 0 ≤ -x := by omega
    have e : x.tdiv b = -((-x) / b) := by
      rw [← Int.tdiv_eq_ediv hn (le_of_lt hb), Int.neg_tdiv, neg_neg]
    have l1 : 0 ≤ (-x) / b := Int.ediv_nonneg hn (le_of_lt hb)
    have l2 : (-x) / b ≤ -x := Int.ediv_le_self b hn
    omega

/-- The percentage text is never empty. -/
theorem format_percent_ne_empty (n : Int) : format_percent n ≠ "" := by
  intro h
  have hl := congrArg String.length h
  have h1 : "%".length = 1 := by decide
  simp [format_percent, h1] at hl

/-- Without overflow the percentage of line 109 is the exact quotient truncated
toward zero. -/
theorem progress_percentage_exact (mt ml : Int) (hpos : 0 < mt)
    (hd : is_int (mt - ml)) (hm : is_int ((mt - ml) * 100)) :
    progress_percentage mt ml = Int.tdiv ((mt - ml) * 100) mt := by
  unfold progress_percentage int_div int_mul int_sub
  rw [wrap_int_of_is_int hd, wrap_int_of_is_int hm, wrap_int_of_is_int (is_int_tdiv hm hpos)]

/-- C10, the claim at a concrete record: with `moves_total = 3` and
`moves_left = 4` the suffix is `-33%`, and the floor of `(3 - 4) * 100 / 3` is
`-34`. -/
theorem get_progress_message_floor_counterexample :
    ({ type := ACT_DIG, moves_total := 3, moves_left := 4 } :
        player_activity).get_progress_message example_registry example_avatar
      = some (some "digging: -33%") ∧
    Int.fdiv ((3 - 4) * 100) 3 = -34 := by
  decide

/-- C10 as amended: for a whitelisted kind with a verb and `moves_total > 0`,
when `( moves_total - moves_left ) * 100` is computed without overflow, the
message is the verb followed by the quotient of that number by `moves_total`
truncated toward zero and a percent sign; the quotient is the floor whenever
`moves_left ≤ moves_total`. -/
theorem get_progress_message_percentage (reg : activity_registry) (a : player_activity)
    (u : avatar) (hk : a.type ∈ progress_whitelist) (hv : (reg a.type).verb ≠ "")
    (hpos : 0 < a.moves_total) (hd : is_int (a.moves_total - a.moves_left))
    (hm : is_int ((a.moves_total - a.moves_left) * 100)) :
    a.get_progress_message reg u = some (some ((reg a.type).verb ++ ": " ++
      format_percent (Int.tdiv ((a.moves_total - a.moves_left) * 100) a.moves_total))) ∧
    (a.moves_left ≤ a.moves_total →
      Int.tdiv ((a.moves_total - a.moves_left) * 100) a.moves_total
        = Int.fdiv ((a.moves_total - a.moves_left) * 100) a.moves_total) := by
  have hnull : a.type ≠ ACT_NULL := by
    intro h
    rw [h] at hk
    simp [progress_whitelist] at hk
  have hcraft : a.type ≠ ACT_CRAFT := by
    intro h
    rw [h] at hk
    simp [progress_whitelist] at hk
  have hread : a.type ≠ ACT_READ := by
    intro h
    rw [h] at hk
    simp [progress_whitelist] at hk
  have hbuild : a.type ≠ ACT_BUILD := by
    intro h
    rw [h] at hk
    simp [progress_whitelist] at hk
  have hex : extra_info a u = some (format_percent
      (Int.tdiv ((a.moves_total - a.moves_left) * 100) a.moves_total)) := by
    unfold extra_info
    rw [if_neg hcraft, if_neg hread, if_pos hpos]
    simp only [if_neg hbuild, if_pos hk]
    rw [progress_percentage_exact _ _ hpos hd hm]
  refine ⟨?_, ?_⟩
  · unfold player_activity.get_progress_message
    rw [if_neg (by simp [hnull, hv]), hex]
    simp only [if_neg (format_percent_ne_empty _)]
  · intro hle
    have hnum : 0 ≤ (a.moves_total - a.moves_left) * 100 := by omega
    rw [Int.tdiv_eq_ediv hnum (le_of_lt hpos), Int.fdiv_eq_ediv _ (le_of_lt hpos)]

/-- C10 as amended, at `moves_total = 1000`, `moves_left = 400`: the message is
`digging: 60%`. -/
theorem get_progress_message_percentage_witness :
    (dig_at [] []).get_progress_message example_registry example_avatar
      = some (some "digging: 60%") :=
  (get_progress_message_percentage example_registry (dig_at [] []) example_avatar
    (by decide) (by decide) (by decide) (by decide) (by decide)).1

/-! ### Resume compatibility of the rubble and digging kinds -/

/-- C14 at a failing input: the receiver is a rubble-clearing record whose
`coords` is empty while its storage still holds (4, 5, 0); the argument's first
coordinate is (4, 5, 0). The unchecked read of line 230 returns the stale
element and the call returns true, with no coordinate in the receiver. With no
storage behind the empty vector the same call has no result. -/
theorem can_resume_with_rubble_stale_coord :
    ({ rubble_at [] with coords_stale := some ⟨4, 5, 0⟩ } : player_activity).coords = [] ∧
      ({ rubble_at [] with coords_stale := some ⟨4, 5, 0⟩ } :
        player_activity).can_resume_with example_registry (rubble_at [⟨4, 5, 0⟩]) = some true ∧
      (rubble_at []).can_resume_with example_registry (rubble_at [⟨4, 5, 0⟩]) = none := by
  decide

/-- What the rubble rule guarantees: a true result means that the argument has a
first coordinate and that the read `coords[0]` of the receiver returned the
same one; the receiver's own first coordinate only when its `coords` is not
empty. -/
theorem can_resume_with_rubble_first_coord (reg : activity_registry)
    (self other : player_activity) (hk : self.id = ACT_CLEAR_RUBBLE)
    (h : self.can_resume_with reg other = some true) :
    (∃ c os, rubble_first_coord self = some c ∧ other.coords = c :: os) ∧
      (self.coords ≠ [] → ∃ c cs os, self.coords = c :: cs ∧ other.coords = c :: os) := by
  have hrule : resume_rule self other = resume_rule_clear_rubble self other := by
    simp [resume_rule, hk]
  unfold player_activity.can_resume_with at h
  split at h
  · simp at h
  · rw [hrule] at h
    have hrub : resume_rule_clear_rubble self other = some true := by
      cases hq : resume_rule_clear_rubble self other with
      | none => simp [hq] at h
      | some b =>
        cases b with
        | false => simp [hq] at h
        | true => rfl
    unfold resume_rule_clear_rubble at hrub
    cases hoc : other.coords with
    | nil => simp [hoc] at hrub
    | cons o os =>
      cases hfc : rubble_first_coord self with
      | none => simp [hoc, hfc] at hrub
      | some c =>
        by_cases hoc2 : o = c
        · refine ⟨⟨c, os, rfl, by rw [hoc2]⟩, ?_⟩
          intro hne
          cases hsc : self.coords with
          | nil => exact absurd hsc hne
          | cons c2 cs =>
            have : c2 = c := by
              simpa [rubble_first_coord, hsc] using hfc
            exact ⟨c2, cs, os, rfl, by rw [hoc2, this]⟩
        · simp [hoc, hfc, hoc2] at hrub

/-- On vectors of equal lengths the digging rule compares whole sequences. -/
theorem resume_rule_dig_of_length_eq (self other : player_activity)
    (hv : self.values.length = other.values.length)
    (hs : self.str_values.length = other.str_values.length)
    (hc : self.coords.length = other.coords.length) :
    resume_rule_dig self other = some (decide (self.placement = other.placement ∧
      self.values = other.values ∧ self.str_values = other.str_values ∧
      self.coords = other.coords)) := by
  unfold resume_rule_dig
  rw [std_equal_of_length_eq _ _ hv, std_equal_of_length_eq _ _ hs,
    std_equal_of_length_eq _ _ hc]
  by_cases h0 : self.placement = other.placement <;>
  by_cases h1 : self.values = other.values <;>
  by_cases h2 : self.str_values = other.str_values <;>
  by_cases h3 : self.coords = other.coords <;>
  simp [h0, h1, h2, h3]

/-- C19: for a digging or channel-digging receiver and a non-empty argument whose
three compared vectors have the lengths of the receiver's, each `std::equal`
reads inside the argument's vector, the call returns, and it returns true
exactly when the receiver's kind permits resumption, placement and the three
vectors are equal, the receiver's `auto_resume` is false, and identifier,
index, position, name and targets are equal. -/
theorem can_resume_with_dig_equal_lengths (reg : activity_registry)
    (self other : player_activity) (hk : self.id = ACT_DIG ∨ self.id = ACT_DIG_CHANNEL)
    (ho : other.type ≠ ACT_NULL)
    (hv : self.values.length = other.values.length)
    (hs : self.str_values.length = other.str_values.length)
    (hc : self.coords.length = other.coords.length) :
    (std_equal self.values other.values ≠ none ∧
      std_equal self.str_values other.str_values ≠ none ∧
      std_equal self.coords other.coords ≠ none) ∧
    (self.can_resume_with reg other = some true ∨
      self.can_resume_with reg other = some false) ∧
    (self.can_resume_with reg other = some true ↔
      ((reg self.type).no_resume = false ∧ self.placement = other.placement ∧
        self.values = other.values ∧ self.str_values = other.str_values ∧
        self.coords = other.coords ∧ self.auto_resume = false ∧ self.id = other.id ∧
        self.index = other.index ∧ self.position = other.position ∧
        self.name = other.name ∧ self.targets = other.targets)) := by
  have hself : self.type ≠ ACT_NULL := by
    rcases hk with hk | hk <;>
    · intro h
      simp [player_activity.id, h] at hk
  have hrule : resume_rule self other = resume_rule_dig self other := by
    rcases hk with hk | hk <;> simp [resume_rule, hk]
  have hdig := resume_rule_dig_of_length_eq self other hv hs hc
  refine ⟨⟨std_equal_ne_none _ _ (le_of_eq hv), std_equal_ne_none _ _ (le_of_eq hs),
    std_equal_ne_none _ _ (le_of_eq hc)⟩, ?_⟩
  unfold player_activity.can_resume_with
  rw [hrule, hdig]
  by_cases hn : (reg self.type).no_resume = true
  · have hg : (!self.is_active || !other.is_active || (reg self.type).no_resume) = true := by
      simp [hn]
    rw [if_pos hg]
    refine ⟨Or.inr rfl, ?_⟩
    constructor
    · intro h
      simp at h
    · rintro ⟨h, -⟩
      rw [hn] at h
      simp at h
  · have hn2 : (reg self.type).no_resume = false := by simpa using hn
    have hg : ¬ (!self.is_active || !other.is_active || (reg self.type).no_resume) = true := by
      simp [player_activity.is_active, hself, ho, hn2]
    rw [if_neg hg]
    by_cases hd : self.placement = other.placement ∧ self.values = other.values ∧
        self.str_values = other.str_values ∧ self.coords = other.coords
    · rw [decide_eq_true hd]
      refine ⟨?_, ?_⟩
      · cases resume_generic self other
        · exact Or.inr rfl
        · exact Or.inl rfl
      · simp only [Option.some.injEq, resume_generic, Bool.and_eq_true, Bool.not_eq_true',
          decide_eq_true_eq]
        constructor
        · rintro ⟨⟨⟨⟨⟨e1, e2⟩, e3⟩, e4⟩, e5⟩, e6⟩
          exact ⟨hn2, hd.1, hd.2.1, hd.2.2.1, hd.2.2.2, e1, e2, e3, e4, e5, e6⟩
        · rintro ⟨-, -, -, -, -, e1, e2, e3, e4, e5, e6⟩
          exact ⟨⟨⟨⟨⟨e1, e2⟩, e3⟩, e4⟩, e5⟩, e6⟩
    · rw [decide_eq_false hd]
      refine ⟨Or.inr rfl, ?_⟩
      constructor
      · intro h
        simp at h
      · rintro ⟨-, h1, h2, h3, h4, -⟩
        exact absurd ⟨h1, h2, h3, h4⟩ hd

/-- C19 on digging records with one parameter and two coordinates: equal records
resume, the same coordinates in another order do not. -/
theorem can_resume_with_dig_equal_lengths_witness :
    (dig_at [5] [⟨1, 2, 0⟩, ⟨1, 3, 0⟩]).can_resume_with example_registry
        (dig_at [5] [⟨1, 2, 0⟩, ⟨1, 3, 0⟩]) = some true ∧
      ¬ (dig_at [5] [⟨1, 2, 0⟩, ⟨1, 3, 0⟩]).can_resume_with example_registry
        (dig_at [5] [⟨1, 3, 0⟩, ⟨1, 2, 0⟩]) = some true :=
  ⟨(can_resume_with_dig_equal_lengths example_registry (dig_at [5] [⟨1, 2, 0⟩, ⟨1, 3, 0⟩])
      (dig_at [5] [⟨1, 2, 0⟩, ⟨1, 3, 0⟩]) (Or.inl rfl) (by decide) rfl rfl rfl).2.2.mpr
      (by decide),
   fun h => absurd ((can_resume_with_dig_equal_lengths example_registry
      (dig_at [5] [⟨1, 2, 0⟩, ⟨1, 3, 0⟩]) (dig_at [5] [⟨1, 3, 0⟩, ⟨1, 2, 0⟩]) (Or.inl rfl)
      (by decide) rfl rfl rfl).2.2.mp h).2.2.2.2.1 (by decide)⟩

/-! ### Bounds of the time-conversion step -/

/-- C13, the claim at two concrete turns: with time basis SPEED, 10 moves left
and a budget of -5 the step leaves 15 moves; with time basis TIME and -5 moves
left it leaves 0. In both `moves_left` has grown. -/
theorem do_turn_convert_moves_left_grows_counterexample :
    ¬ (do_turn_convert example_registry { type := ACT_DIG, moves_left := 10 }
        { moves := -5 }).1.moves_left ≤ 10 ∧
      ¬ (do_turn_convert example_registry { type := ACT_READ, moves_left := -5 }
        { moves := 100 }).1.moves_left ≤ -5 := by
  decide

/-- C13 as amended: when `moves_left` is not negative, and with time basis SPEED
the budget is not negative either, the step does not increase `moves_left`. -/
theorem do_turn_convert_moves_left_le (reg : activity_registry) (a : player_activity)
    (p : player) (hr : is_int a.moves_left) (h0 : 0 ≤ a.moves_left)
    (hb : (reg a.type).based_on = based_on_type.SPEED → 0 ≤ p.moves) :
    (do_turn_convert reg a p).1.moves_left ≤ a.moves_left := by
  unfold is_int at hr
  unfold do_turn_convert
  split
  · split
    · simp only [int_sub, wrap_int]
      omega
    · exact h0
  · split
    · rename_i hS
      have hp := hb hS
      split
      · simp only [int_sub, wrap_int]
        omega
      · exact h0
    · exact le_refl _

/-- C13 as amended, at 250 moves left and a budget of 100 on the actor's speed:
150 moves are left, which is at most 250. -/
theorem do_turn_convert_moves_left_le_witness :
    (do_turn_convert example_registry { type := ACT_DIG, moves_left := 250 }
        { moves := 100 }).1.moves_left ≤ 250 :=
  do_turn_convert_moves_left_le example_registry { type := ACT_DIG, moves_left := 250 }
    { moves := 100 } (by decide) (by decide) (fun _ => by decide)

/-- C20, the claim at a concrete turn: with time basis TIME, 99 moves left and a
budget of 30000000, both non-negative, the product `p.moves * moves_left` does
not fit in an `int` and the budget after the step is larger than before. -/
theorem do_turn_convert_budget_grows_counterexample :
    (do_turn_convert example_registry { type := ACT_READ, moves_left := 99 }
        { moves := 30000000 }).2.moves = 43249672 ∧
      ¬ (do_turn_convert example_registry { type := ACT_READ, moves_left := 99 }
        { moves := 30000000 }).2.moves ≤ 30000000 := by
  decide

/-- C20 as amended: from a non-negative `moves_left` and budget, and when in the
TIME branch below 100 moves the product `p.moves * moves_left` fits in an
`int`, the step leaves both between 0 and their old values; in that branch the
budget loses the truncated quotient of the product by 100 and `moves_left`
becomes 0. -/
theorem do_turn_convert_bounds (reg : activity_registry) (a : player_activity) (p : player)
    (hra : is_int a.moves_left) (hrp : is_int p.moves) (ha : 0 ≤ a.moves_left)
    (hp : 0 ≤ p.moves)
    (hfit : (reg a.type).based_on = based_on_type.TIME → a.moves_left < 100 →
      p.moves * a.moves_left ≤ 2147483647) :
    (0 ≤ (do_turn_convert reg a p).1.moves_left ∧
      (do_turn_convert reg a p).1.moves_left ≤ a.moves_left) ∧
    (0 ≤ (do_turn_convert reg a p).2.moves ∧ (do_turn_convert reg a p).2.moves ≤ p.moves) ∧
    ((reg a.type).based_on = based_on_type.TIME → a.moves_left < 100 →
      (do_turn_convert reg a p).2.moves = p.moves - Int.tdiv (p.moves * a.moves_left) 100 ∧
      (do_turn_convert reg a p).1.moves_left = 0) := by
  unfold is_int at hra hrp
  by_cases hT : (reg a.type).based_on = based_on_type.TIME
  · by_cases h100 : 100 ≤ a.moves_left
    · have e : do_turn_convert reg a p =
          ({ a with moves_left := int_sub a.moves_left 100 }, { p with moves := 0 }) := by
        simp [do_turn_convert, hT, h100]
      rw [e]
      simp only [int_sub, wrap_int]
      refine ⟨⟨by omega, by omega⟩, ⟨le_refl _, hp⟩, ?_⟩
      intro _ hlt
      omega
    · have hlt : a.moves_left < 100 := not_le.mp h100
      have hprod := hfit hT hlt
      have hnn : 0 ≤ p.moves * a.moves_left := Int.mul_nonneg hp ha
      have hmul : int_mul p.moves a.moves_left = p.moves * a.moves_left :=
        wrap_int_of_is_int ⟨by omega, hprod⟩
      have hq : Int.tdiv (p.moves * a.moves_left) 100 = p.moves * a.moves_left / 100 :=
        Int.tdiv_eq_ediv hnn (by decide)
      have hq0 : 0 ≤ p.moves * a.moves_left / 100 := Int.ediv_nonneg hnn (by decide)
      have hqle : p.moves * a.moves_left / 100 ≤ p.moves := by
        apply Int.ediv_le_of_le_mul (by decide)
        have : a.moves_left ≤ 100 := by omega
        exact Int.mul_le_mul_of_nonneg_left this hp
      have hdiv : int_div (p.moves * a.moves_left) 100 = p.moves * a.moves_left / 100 := by
        unfold int_div
        rw [hq]
        exact wrap_int_of_is_int ⟨by omega, by omega⟩
      have hsub : int_sub p.moves (p.moves * a.moves_left / 100)
          = p.moves - p.moves * a.moves_left / 100 :=
        wrap_int_of_is_int ⟨by omega, by omega⟩
      have e : do_turn_convert reg a p =
          ({ a with moves_left := 0 },
           { p with moves := p.moves - p.moves * a.moves_left / 100 }) := by
        simp [do_turn_convert, hT, h100, hmul, hdiv, hsub]
      rw [e, hq]
      refine ⟨⟨le_refl _, ha⟩, ⟨by simp only; omega, by simp only; omega⟩, ?_⟩
      intro _ _
      exact ⟨rfl, rfl⟩
  · by_cases hS : (reg a.type).based_on = based_on_type.SPEED
    · by_cases hle : p.moves ≤ a.moves_left
      · have e : do_turn_convert reg a p =
            ({ a with moves_left := int_sub a.moves_left p.moves }, { p with moves := 0 }) := by
          simp [do_turn_convert, hS, hle]
        rw [e]
        simp only [int_sub, wrap_int]
        exact ⟨⟨by omega, by omega⟩, ⟨le_refl _, hp⟩, fun h => absurd h hT⟩
      · have e : do_turn_convert reg a p =
            ({ a with moves_left := 0 }, { p with moves := int_sub p.moves a.moves_left }) := by
          simp [do_turn_convert, hS, hle]
        rw [e]
        simp only [int_sub, wrap_int]
        exact ⟨⟨le_refl _, ha⟩, ⟨by omega, by omega⟩, fun h => absurd h hT⟩
    · have e : do_turn_convert reg a p = (a, p) := by
        simp [do_turn_convert, hT, hS]
      rw [e]
      exact ⟨⟨ha, le_refl _⟩, ⟨hp, le_refl _⟩, fun h => absurd h hT⟩

/-- C20 as amended, with time basis TIME at 50 moves left and a budget of 100:
the budget becomes 100 - 50 and no move is left. -/
theorem do_turn_convert_bounds_witness :
    (do_turn_convert example_registry { type := ACT_READ, moves_left := 50 }
        { moves := 100 }).2.moves = 100 - Int.tdiv (100 * 50) 100 ∧
      (do_turn_convert example_registry { type := ACT_READ, moves_left := 50 }
        { moves := 100 }).1.moves_left = 0 :=
  (do_turn_convert_bounds example_registry { type := ACT_READ, moves_left := 50 }
    { moves := 100 } (by decide) (by decide) (by decide) (by decide)
    (fun _ _ => by decide)).2.2 (by decide) (by decide)

/-! ### The distraction filter -/

/-- A run of `ignore_distraction` over a list adds exactly the list's categories. -/
theorem foldl_ignore_distraction_mem (l : List distraction_type) :
    ∀ (a : player_activity) (t : distraction_type),
      t ∈ (l.foldl player_activity.ignore_distraction a).ignored_distractions ↔
        t ∈ a.ignored_distractions ∨ t ∈ l := by
  induction l with
  | nil => intro a t; simp
  | cons x xs ih =>
    intro a t
    rw [List.foldl_cons, ih]
    simp only [player_activity.ignore_distraction, Finset.mem_insert, List.mem_cons]
    tauto

/-- C15: the distraction filter is a set: after `a.inherit_distractions b` a
category is ignored exactly when it was ignored by `a` or is ignored by `b`;
after `a.ignore_distraction t` the category `t` is ignored and no other one
changes; after `a.allow_distractions` none is ignored. -/
theorem distraction_filter_set (a b : player_activity) (t u : distraction_type) :
    ((a.inherit_distractions b).is_distraction_ignored t = true ↔
      a.is_distraction_ignored t = true ∨ b.is_distraction_ignored t = true) ∧
    (a.ignore_distraction t).is_distraction_ignored t = true ∧
    (u ≠ t → (a.ignore_distraction t).is_distraction_ignored u
      = a.is_distraction_ignored u) ∧
    a.allow_distractions.is_distraction_ignored t = false := by
  refine ⟨?_, ?_, ?_, ?_⟩
  · simp only [player_activity.is_distraction_ignored, decide_eq_true_eq,
      player_activity.inherit_distractions, foldl_ignore_distraction_mem, Finset.mem_sort]
  · simp [player_activity.is_distraction_ignored, player_activity.ignore_distraction]
  · intro h
    simp [player_activity.is_distraction_ignored, player_activity.ignore_distraction, h]
  · simp [player_activity.is_distraction_ignored, player_activity.allow_distractions]

/-- C15 on a record that ignores category 1 inheriting from one that ignores
category 3: category 3 is then ignored, and category 2 stays as it was when
category 1 is added again. -/
theorem distraction_filter_set_witness :
    (({ ignored_distractions := {⟨1⟩} } : player_activity).inherit_distractions
        { ignored_distractions := {⟨3⟩} }).is_distraction_ignored ⟨3⟩ = true ∧
      (({ ignored_distractions := {⟨1⟩} } : player_activity).ignore_distraction
        ⟨1⟩).is_distraction_ignored ⟨2⟩
        = ({ ignored_distractions := {⟨1⟩} } : player_activity).is_distraction_ignored ⟨2⟩ :=
  ⟨(distraction_filter_set { ignored_distractions := {⟨1⟩} } { ignored_distractions := {⟨3⟩} }
      ⟨3⟩ ⟨3⟩).1.mpr (Or.inr (by decide)),
   (distraction_filter_set { ignored_distractions := {⟨1⟩} } { ignored_distractions := {⟨3⟩} }
      ⟨1⟩ ⟨2⟩).2.2.1 (by decide)⟩

/-! ### The turn -/

/-- The time conversion changes `moves_left` only. -/
theorem do_turn_convert_frame (reg : activity_registry) (a : player_activity) (p : player) :
    (do_turn_convert reg a p).1.type = a.type ∧
      (do_turn_convert reg a p).1.auto_resume = a.auto_resume := by
  unfold do_turn_convert
  split
  · split <;> exact ⟨rfl, rfl⟩
  · split
    · split <;> exact ⟨rfl, rfl⟩
    · exact ⟨rfl, rfl⟩

/-- Up to line 153 the kind and the `auto_resume` mark of the record are kept. -/
theorem do_turn_start_frame (reg : activity_registry) (ext : collaborators)
    (self : player_activity) (p : player) :
    (do_turn_start reg ext self p).1.type = self.type ∧
      (do_turn_start reg ext self p).1.auto_resume = self.auto_resume :=
  do_turn_convert_frame reg self _

/-- The turn on the aborted path (lines 154-161). -/
theorem do_turn_of_aborted (reg : activity_registry) (ext : collaborators)
    (self : player_activity) (p : player) (h : do_turn_aborted reg ext self p = true) :
    self.do_turn reg ext p =
      { act := (do_turn_start reg ext self p).1.set_to_null
        p := ext.drop_invalid_inventory (do_turn_start reg ext self p).2
        trace := do_turn_start_trace reg self ++ [effect.drop_invalid_inventory] } := by
  unfold do_turn_aborted at h
  simp only [player_activity.do_turn, h, if_true]

/-- The turn on the interrupted path (lines 173-182). -/
theorem do_turn_of_interrupt (reg : activity_registry) (ext : collaborators)
    (self : player_activity) (p : player) (h : do_turn_aborted reg ext self p = false)
    (hi : stamina_interrupt (decide ((do_turn_start reg ext self p).1.id = ACT_TRAVELLING))
      (do_turn_start reg ext self p).2.stamina (do_turn_hooked reg ext self p).2 = true) :
    self.do_turn reg ext p =
      { act := (ext.assign_activity { (do_turn_hooked reg ext self p).1 with auto_resume := true }
          (do_turn_hooked reg ext self p).2
          (wait_stamina_activity ext (do_turn_hooked reg ext self p).2)).1
        p := (ext.assign_activity { (do_turn_hooked reg ext self p).1 with auto_resume := true }
          (do_turn_hooked reg ext self p).2
          (wait_stamina_activity ext (do_turn_hooked reg ext self p).2)).2
        trace := do_turn_start_trace reg self ++ [effect.call_do_turn] ++
          (if ext.one_in_50 then [effect.add_msg_if_player] else []) ++
          [effect.assign_activity
            (wait_stamina_activity ext (do_turn_hooked reg ext self p).2)] } := by
  unfold do_turn_aborted at h
  unfold do_turn_hooked at hi ⊢
  simp only [player_activity.do_turn, h, hi, if_true, Bool.false_eq_true, if_false]

/-- The turn on the path that reaches line 183. -/
theorem do_turn_of_finish (reg : activity_registry) (ext : collaborators)
    (self : player_activity) (p : player) (h : do_turn_aborted reg ext self p = false)
    (hi : stamina_interrupt (decide ((do_turn_start reg ext self p).1.id = ACT_TRAVELLING))
      (do_turn_start reg ext self p).2.stamina (do_turn_hooked reg ext self p).2 = false) :
    self.do_turn reg ext p =
      { act := (do_turn_finish reg ext (do_turn_hooked reg ext self p).1
          (do_turn_hooked reg ext self p).2).act
        p := (do_turn_finish reg ext (do_turn_hooked reg ext self p).1
          (do_turn_hooked reg ext self p).2).p
        trace := do_turn_start_trace reg self ++ [effect.call_do_turn] ++
          (do_turn_finish reg ext (do_turn_hooked reg ext self p).1
            (do_turn_hooked reg ext self p).2).trace } := by
  unfold do_turn_aborted at h
  unfold do_turn_hooked at hi ⊢
  simp only [player_activity.do_turn, h, hi, Bool.false_eq_true, if_false]

/-- Before the time conversion only the fire-refuel effect is called. -/
theorem do_turn_start_trace_mem (reg : activity_registry) (self : player_activity)
    (e : effect) (h : e ∈ do_turn_start_trace reg self) : e = effect.try_fuel_fire := by
  unfold do_turn_start_trace at h
  split at h
  · simpa using h
  · simp at h

/-- C18: when the actor is an NPC whose target is out of the loaded region at
line 154, the turn ends with the record empty and the inventory reconciled;
the progress hook, the finish hook, `assign_activity` and the backlog step
are not called, and `auto_resume` is as it was. -/
theorem do_turn_npc_out_of_region (reg : activity_registry) (ext : collaborators)
    (self : player_activity) (p : player)
    (hnpc : (do_turn_start reg ext self p).2.npc = true)
    (hout : ext.check_outbounds_activity (do_turn_start reg ext self p).2
      (do_turn_start reg ext self p).1 = true) :
    (self.do_turn reg ext p).act.is_active = false ∧
    (self.do_turn reg ext p).p = ext.drop_invalid_inventory (do_turn_start reg ext self p).2 ∧
    effect.drop_invalid_inventory ∈ (self.do_turn reg ext p).trace ∧
    effect.call_do_turn ∉ (self.do_turn reg ext p).trace ∧
    effect.call_finish ∉ (self.do_turn reg ext p).trace ∧
    (∀ na, effect.assign_activity na ∉ (self.do_turn reg ext p).trace) ∧
    effect.resume_backlog_activity ∉ (self.do_turn reg ext p).trace ∧
    (self.do_turn reg ext p).act.auto_resume = self.auto_resume := by
  have hab : do_turn_aborted reg ext self p = true := by
    simp [do_turn_aborted, hnpc, hout]
  rw [do_turn_of_aborted reg ext self p hab]
  have hno : ∀ e, e ≠ effect.try_fuel_fire → e ≠ effect.drop_invalid_inventory →
      e ∉ do_turn_start_trace reg self ++ [effect.drop_invalid_inventory] := by
    intro e h1 h2 hmem
    rcases List.mem_append.mp hmem with h | h
    · exact h1 (do_turn_start_trace_mem reg self e h)
    · exact h2 (by simpa using h)
  refine ⟨?_, rfl, ?_, ?_, ?_, ?_, ?_, ?_⟩
  · simp [player_activity.set_to_null, player_activity.is_active]
  · simp
  · exact hno _ (by decide) (by decide)
  · exact hno _ (by decide) (by decide)
  · intro na
    exact hno _ (fun h => by cases h) (fun h => by cases h)
  · exact hno _ (by decide) (by decide)
  · simp only [player_activity.set_to_null]
    exact (do_turn_start_frame reg ext self p).2

/-- C18 on an NPC digging at `x = 200`, beyond the loaded region: the record is
empty after the turn and the only call is the inventory reconciliation. -/
theorem do_turn_npc_out_of_region_witness :
    (({ dig_at [] [] with placement := ⟨200, 2, 0⟩ } : player_activity).do_turn
        example_registry example_collaborators { moves := 100, npc := true }).act.is_active
        = false ∧
      effect.call_do_turn ∉
        (({ dig_at [] [] with placement := ⟨200, 2, 0⟩ } : player_activity).do_turn
          example_registry example_collaborators { moves := 100, npc := true }).trace :=
  ⟨(do_turn_npc_out_of_region example_registry example_collaborators
      { dig_at [] [] with placement := ⟨200, 2, 0⟩ } { moves := 100, npc := true }
      (by decide) (by decide)).1,
   (do_turn_npc_out_of_region example_registry example_collaborators
      { dig_at [] [] with placement := ⟨200, 2, 0⟩ } { moves := 100, npc := true }
      (by decide) (by decide)).2.2.2.1⟩

/-- A third of an `int`, truncated, is far inside the range of `int`. -/
theorem tdiv_three_bounds {x : Int} (hx : is_int x) :
    -715827882 ≤ x.tdiv 3 ∧ x.tdiv 3 ≤ 715827882 := by
  unfold is_int at hx
  rcases le_or_lt 0 x with h0 | h0
  · rw [Int.tdiv_eq_ediv h0 (by decide)]
    omega
  · have hn : 0 ≤ -x := by omega
    have e : x.tdiv 3 = -((-x) / 3) := by
      rw [← Int.tdiv_eq_ediv hn (by decide), Int.neg_tdiv, neg_neg]
    rw [e]
    omega

/-- The threshold `get_stamina_max() / 3` of an `int` maximum is exact. -/
theorem int_div_three (x : Int) (hx : is_int x) : int_div x 3 = x.tdiv 3 := by
  have hb := tdiv_three_bounds hx
  exact wrap_int_of_is_int ⟨by omega, by omega⟩

/-- The rooted step calls the rooted effect and the pause only. -/
theorem do_turn_rooted_trace_mem (reg : activity_registry) (a : player_activity) (e : effect)
    (h : e ∈ do_turn_rooted_trace reg a) : e = effect.rooted ∨ e = effect.pause := by
  unfold do_turn_rooted_trace at h
  split at h
  · simpa using h
  · simp at h

/-- The completion check calls the finish hook exactly when the record is not
empty and has no move left. -/
theorem do_turn_completion_trace (ext : collaborators) (a : player_activity) (p : player) :
    (do_turn_completion ext a p).2.2 =
      if a.is_active = true ∧ a.moves_left ≤ 0 then [effect.call_finish] else [] := by
  unfold do_turn_completion
  by_cases hc : a.is_active = true ∧ a.moves_left ≤ 0
  · have hc2 : (a.is_active && decide (a.moves_left ≤ 0)) = true := by simpa using hc
    rw [if_pos hc2, if_pos hc]
    rcases ext.call_finish a p with ⟨b, a5, p5⟩
    cases b <;> rfl
  · have hc2 : ¬ (a.is_active && decide (a.moves_left ≤ 0)) = true := by simpa using hc
    rw [if_neg hc2, if_neg hc]

/-- A finish hook that returns false has the record cleared by the check. -/
theorem do_turn_completion_of_false (ext : collaborators) (a : player_activity) (p : player)
    (ha : a.is_active = true) (hm : a.moves_left ≤ 0) (hf : (ext.call_finish a p).1 = false) :
    (do_turn_completion ext a p).1 = (ext.call_finish a p).2.1.set_to_null ∧
      (do_turn_completion ext a p).2.1 = (ext.call_finish a p).2.2 := by
  unfold do_turn_completion
  have hc2 : (a.is_active && decide (a.moves_left ≤ 0)) = true := by simp [ha, hm]
  rw [if_pos hc2]
  rcases hq : ext.call_finish a p with ⟨b, a5, p5⟩
  rw [hq] at hf
  simp only at hf
  subst hf
  exact ⟨rfl, rfl⟩

/-- The end of a turn calls nothing but the rooted effect, the finish hook and
the three steps of the empty-record tail. -/
theorem do_turn_finish_trace_mem (reg : activity_registry) (ext : collaborators)
    (a : player_activity) (p : player) (e : effect)
    (h : e ∈ (do_turn_finish reg ext a p).trace) :
    e ∈ [effect.rooted, effect.pause, effect.call_finish, effect.reset_activity,
      effect.resume_backlog_activity, effect.drop_invalid_inventory] := by
  have hcomp : e ∈ (do_turn_completion ext a (do_turn_rooted reg ext a p)).2.2 →
      e = effect.call_finish := by
    rw [do_turn_completion_trace]
    intro hm
    split at hm
    · simpa using hm
    · simp at hm
  unfold do_turn_finish at h
  simp only at h
  split at h
  · simp only [List.mem_append, List.mem_cons, List.mem_singleton, List.not_mem_nil,
      or_false] at h
    rcases h with (h | h) | h
    · rcases do_turn_rooted_trace_mem reg a e h with h | h <;> simp [h]
    · simp [hcomp h]
    · rcases h with h | h | h <;> simp [h]
  · simp only [List.mem_append] at h
    rcases h with h | h
    · rcases do_turn_rooted_trace_mem reg a e h with h | h <;> simp [h]
    · simp [hcomp h]

/-- C11: on a turn that is not aborted, for a record that is not travelling, when
the stamina after the progress hook is below the stamina recorded before it
and below a third of the maximum, the turn sets `auto_resume` on the record
in the slot, hands it with the actor to `assign_activity` together with a new
`ACT_WAIT_STAMINA` record of one minute of moves, `auto_resume` false and
`values = [200 + max / 3]`, and returns what that call leaves: the rooted
effect, the finish hook and the backlog step are not called. -/
theorem do_turn_stamina_interrupt (reg : activity_registry) (ext : collaborators)
    (self : player_activity) (p : player) (hab : do_turn_aborted reg ext self p = false)
    (htr : self.id ≠ ACT_TRAVELLING)
    (hmax : is_int (do_turn_hooked reg ext self p).2.stamina_max)
    (hlow : (do_turn_hooked reg ext self p).2.stamina <
      (do_turn_start reg ext self p).2.stamina)
    (hthird : (do_turn_hooked reg ext self p).2.stamina <
      Int.tdiv (do_turn_hooked reg ext self p).2.stamina_max 3) :
    ((self.do_turn reg ext p).act, (self.do_turn reg ext p).p) =
      ext.assign_activity { (do_turn_hooked reg ext self p).1 with auto_resume := true }
        (do_turn_hooked reg ext self p).2
        (wait_stamina_activity ext (do_turn_hooked reg ext self p).2) ∧
    ((wait_stamina_activity ext (do_turn_hooked reg ext self p).2).type = ACT_WAIT_STAMINA ∧
      (wait_stamina_activity ext (do_turn_hooked reg ext self p).2).moves_total
        = ext.minute_moves ∧
      (wait_stamina_activity ext (do_turn_hooked reg ext self p).2).moves_left
        = ext.minute_moves ∧
      (wait_stamina_activity ext (do_turn_hooked reg ext self p).2).auto_resume = false ∧
      (wait_stamina_activity ext (do_turn_hooked reg ext self p).2).values
        = [200 + Int.tdiv (do_turn_hooked reg ext self p).2.stamina_max 3]) ∧
    ((self.do_turn reg ext p).trace.getLast? = some (effect.assign_activity
        (wait_stamina_activity ext (do_turn_hooked reg ext self p).2)) ∧
      effect.rooted ∉ (self.do_turn reg ext p).trace ∧
      effect.call_finish ∉ (self.do_turn reg ext p).trace ∧
      effect.resume_backlog_activity ∉ (self.do_turn reg ext p).trace) := by
  have hid : (do_turn_start reg ext self p).1.id = self.id :=
    (do_turn_start_frame reg ext self p).1
  have hi : stamina_interrupt (decide ((do_turn_start reg ext self p).1.id = ACT_TRAVELLING))
      (do_turn_start reg ext self p).2.stamina (do_turn_hooked reg ext self p).2 = true := by
    rw [hid]
    simp [stamina_interrupt, htr, hlow, int_div_three _ hmax, hthird]
  rw [do_turn_of_interrupt reg ext self p hab hi]
  have hno : ∀ e, e ≠ effect.try_fuel_fire → e ≠ effect.call_do_turn →
      e ≠ effect.add_msg_if_player →
      (∀ na, e ≠ effect.assign_activity na) →
      e ∉ do_turn_start_trace reg self ++ [effect.call_do_turn] ++
        (if ext.one_in_50 then [effect.add_msg_if_player] else []) ++
        [effect.assign_activity
          (wait_stamina_activity ext (do_turn_hooked reg ext self p).2)] := by
    intro e h1 h2 h3 h4 hmem
    simp only [List.mem_append, List.mem_singleton] at hmem
    rcases hmem with ((h | h) | h) | h
    · exact h1 (do_turn_start_trace_mem reg self e h)
    · exact h2 h
    · split at h
      · exact h3 (by simpa using h)
      · simp at h
    · exact h4 _ h
  refine ⟨rfl, ⟨rfl, rfl, rfl, rfl, ?_⟩, ⟨?_, ?_, ?_, ?_⟩⟩
  · have hb := tdiv_three_bounds hmax
    have hadd : int_add 200 (Int.tdiv (do_turn_hooked reg ext self p).2.stamina_max 3)
        = 200 + Int.tdiv (do_turn_hooked reg ext self p).2.stamina_max 3 :=
      wrap_int_of_is_int ⟨by omega, by omega⟩
    simp [wait_stamina_activity, player_activity.mk_activity, int_div_three _ hmax, hadd]
  · cases ext.one_in_50 <;> simp
  · exact hno _ (by decide) (by decide) (by decide) (fun na h => by cases h)
  · exact hno _ (by decide) (by decide) (by decide) (fun na h => by cases h)
  · exact hno _ (by decide) (by decide) (by decide) (fun na h => by cases h)

/-- C11 on a digging turn of 100 moves that takes the stamina from 500 to 100
with a maximum of 1000: `assign_activity` receives the digging record with 300
moves left and `auto_resume` set, which the example pushes on the backlog, and
the slot ends with the new record, which aims at stamina 533. -/
theorem do_turn_stamina_interrupt_witness :
    (((dig_at [] []).do_turn example_registry example_collaborators
        { moves := 100, stamina := 500, stamina_max := 1000 }).act,
      ((dig_at [] []).do_turn example_registry example_collaborators
        { moves := 100, stamina := 500, stamina_max := 1000 }).p) =
      (({ type := ACT_WAIT_STAMINA, moves_total := 6000, moves_left := 6000, index := -1,
          position := -2147483648, values := [533] } : player_activity),
       ({ moves := 0, stamina := 100, stamina_max := 1000,
          backlog := [{ dig_at [] [] with moves_left := 300, auto_resume := true }] }
        : player)) :=
  (do_turn_stamina_interrupt example_registry example_collaborators (dig_at [] [])
    { moves := 100, stamina := 500, stamina_max := 1000 } (by decide) (by decide)
    (by decide) (by decide) (by decide)).1

/-- On a turn that is not aborted, `assign_activity` is called exactly when the
test of lines 172-173 succeeds. -/
theorem do_turn_assign_iff (reg : activity_registry) (ext : collaborators)
    (self : player_activity) (p : player) (hab : do_turn_aborted reg ext self p = false) :
    (∃ na, effect.assign_activity na ∈ (self.do_turn reg ext p).trace) ↔
      stamina_interrupt (decide (self.id = ACT_TRAVELLING))
        (do_turn_start reg ext self p).2.stamina (do_turn_hooked reg ext self p).2 = true := by
  have hid : (do_turn_start reg ext self p).1.id = self.id :=
    (do_turn_start_frame reg ext self p).1
  rw [← hid]
  cases hi : stamina_interrupt (decide ((do_turn_start reg ext self p).1.id = ACT_TRAVELLING))
      (do_turn_start reg ext self p).2.stamina (do_turn_hooked reg ext self p).2 with
  | true =>
    rw [do_turn_of_interrupt reg ext self p hab hi]
    simp
  | false =>
    rw [do_turn_of_finish reg ext self p hab hi]
    simp only [Bool.false_eq_true, iff_false, not_exists]
    intro na hmem
    simp only [List.mem_append, List.mem_singleton] at hmem
    rcases hmem with (h | h) | h
    · exact absurd (do_turn_start_trace_mem reg self _ h) (fun h => by cases h)
    · cases h
    · have := do_turn_finish_trace_mem reg ext _ _ _ h
      simp at this

/-- C17, the claim at a concrete turn: a journey during which the stamina stays
at `INT_MIN`, with a maximum of 1000. The stamina after the hook is at most
the stamina before and below a third of the maximum, and the only call of the
turn is the progress hook: `stamina - 1` has wrapped to `INT_MAX` and the
interrupt is not taken. -/
theorem do_turn_travel_int_min_counterexample :
    (do_turn_hooked example_registry example_collaborators (travel_to ⟨9, 9, 0⟩)
        { moves := 50, stamina := -2147483648, stamina_max := 1000 }).2.stamina ≤
      (do_turn_start example_registry example_collaborators (travel_to ⟨9, 9, 0⟩)
        { moves := 50, stamina := -2147483648, stamina_max := 1000 }).2.stamina ∧
    (do_turn_hooked example_registry example_collaborators (travel_to ⟨9, 9, 0⟩)
        { moves := 50, stamina := -2147483648, stamina_max := 1000 }).2.stamina <
      Int.tdiv (do_turn_hooked example_registry example_collaborators (travel_to ⟨9, 9, 0⟩)
        { moves := 50, stamina := -2147483648, stamina_max := 1000 }).2.stamina_max 3 ∧
    ((travel_to ⟨9, 9, 0⟩).do_turn example_registry example_collaborators
        { moves := 50, stamina := -2147483648, stamina_max := 1000 }).trace
      = [effect.call_do_turn] := by
  decide

/-- C17 as amended: on a turn that is not aborted, for a travelling record whose
stamina after the hook is not `INT_MIN` the interrupt is taken exactly when
that stamina is at most the stamina recorded before the hook and below a third
of the maximum; for every other kind exactly when it is below the stamina
recorded before and below that third. -/
theorem do_turn_interrupt_iff (reg : activity_registry) (ext : collaborators)
    (self : player_activity) (p : player) (hab : do_turn_aborted reg ext self p = false)
    (hs : is_int (do_turn_hooked reg ext self p).2.stamina)
    (hmax : is_int (do_turn_hooked reg ext self p).2.stamina_max) :
    (self.id = ACT_TRAVELLING →
      (do_turn_hooked reg ext self p).2.stamina ≠ -2147483648 →
      ((∃ na, effect.assign_activity na ∈ (self.do_turn reg ext p).trace) ↔
        (do_turn_hooked reg ext self p).2.stamina ≤
            (do_turn_start reg ext self p).2.stamina ∧
          (do_turn_hooked reg ext self p).2.stamina <
            Int.tdiv (do_turn_hooked reg ext self p).2.stamina_max 3)) ∧
    (self.id ≠ ACT_TRAVELLING →
      ((∃ na, effect.assign_activity na ∈ (self.do_turn reg ext p).trace) ↔
        (do_turn_hooked reg ext self p).2.stamina <
            (do_turn_start reg ext self p).2.stamina ∧
          (do_turn_hooked reg ext self p).2.stamina <
            Int.tdiv (do_turn_hooked reg ext self p).2.stamina_max 3)) := by
  rw [do_turn_assign_iff reg ext self p hab]
  refine ⟨?_, ?_⟩
  · intro ht hne
    have hm : stamina_interrupt (decide (self.id = ACT_TRAVELLING))
        (do_turn_start reg ext self p).2.stamina (do_turn_hooked reg ext self p).2 = true ↔
        int_sub (do_turn_hooked reg ext self p).2.stamina 1 <
            (do_turn_start reg ext self p).2.stamina ∧
          (do_turn_hooked reg ext self p).2.stamina <
            Int.tdiv (do_turn_hooked reg ext self p).2.stamina_max 3 := by
      simp [stamina_interrupt, ht, int_div_three _ hmax]
    rw [hm]
    have hsub : int_sub (do_turn_hooked reg ext self p).2.stamina 1
        = (do_turn_hooked reg ext self p).2.stamina - 1 := by
      unfold is_int at hs
      exact wrap_int_of_is_int ⟨by omega, by omega⟩
    rw [hsub]
    constructor
    · rintro ⟨h1, h2⟩
      exact ⟨by omega, h2⟩
    · rintro ⟨h1, h2⟩
      exact ⟨by omega, h2⟩
  · intro ht
    simp [stamina_interrupt, ht, int_div_three _ hmax]

/-- C17 as amended, on a journey during which the stamina stays at 100 of 1000:
the interrupt is taken although no stamina was spent. -/
theorem do_turn_interrupt_iff_witness :
    ∃ na, effect.assign_activity na ∈
      ((travel_to ⟨9, 9, 0⟩).do_turn example_registry example_collaborators
        { moves := 100, stamina := 100, stamina_max := 1000 }).trace :=
  ((do_turn_interrupt_iff example_registry example_collaborators (travel_to ⟨9, 9, 0⟩)
      { moves := 100, stamina := 100, stamina_max := 1000 } (by decide) (by decide)
      (by decide)).1 rfl (by decide)).mpr ⟨by decide, by decide⟩

/-- C16, the claim at a concrete turn: a burrowing record uses up its 500 moves
while a paused digging activity waits in the backlog. The finish hook is
called and returns false, and when the turn returns the record in the slot is
the digging activity, restored by the backlog step: the instance is not empty. -/
theorem do_turn_finish_restores_counterexample :
    effect.call_finish ∈ (burrow_fresh.do_turn example_registry example_collaborators
        { moves := 600, stamina := 500, stamina_max := 1000, backlog := [dig_paused] }).trace ∧
      (example_collaborators.call_finish
        (do_turn_hooked example_registry example_collaborators burrow_fresh
          { moves := 600, stamina := 500, stamina_max := 1000, backlog := [dig_paused] }).1
        (do_turn_rooted example_registry example_collaborators
          (do_turn_hooked example_registry example_collaborators burrow_fresh
            { moves := 600, stamina := 500, stamina_max := 1000, backlog := [dig_paused] }).1
          (do_turn_hooked example_registry example_collaborators burrow_fresh
            { moves := 600, stamina := 500, stamina_max := 1000,
              backlog := [dig_paused] }).2)).1 = false ∧
      (burrow_fresh.do_turn example_registry example_collaborators
        { moves := 600, stamina := 500, stamina_max := 1000, backlog := [dig_paused] }).act
        = dig_paused ∧
      (burrow_fresh.do_turn example_registry example_collaborators
        { moves := 600, stamina := 500, stamina_max := 1000,
          backlog := [dig_paused] }).act.is_active = true := by
  decide

/-- C16 as amended: on a turn that is neither aborted nor interrupted, the finish
hook is called exactly when the record after the progress hook is not empty
and has `moves_left ≤ 0`; and when it is called and returns false, the record
is cleared, a default record is put in the slot, and the backlog step and the
inventory reconciliation run on it in that order, so that the record at the
end of the turn is what the backlog step left in the slot: empty when that
step left the default record there. -/
theorem do_turn_finish_hook (reg : activity_registry) (ext : collaborators)
    (self : player_activity) (p : player) (hab : do_turn_aborted reg ext self p = false)
    (hi : stamina_interrupt (decide ((do_turn_start reg ext self p).1.id = ACT_TRAVELLING))
      (do_turn_start reg ext self p).2.stamina (do_turn_hooked reg ext self p).2 = false) :
    (effect.call_finish ∈ (self.do_turn reg ext p).trace ↔
      (do_turn_hooked reg ext self p).1.is_active = true ∧
        (do_turn_hooked reg ext self p).1.moves_left ≤ 0) ∧
    ((do_turn_hooked reg ext self p).1.is_active = true →
      (do_turn_hooked reg ext self p).1.moves_left ≤ 0 →
      (ext.call_finish (do_turn_hooked reg ext self p).1
        (do_turn_rooted reg ext (do_turn_hooked reg ext self p).1
          (do_turn_hooked reg ext self p).2)).1 = false →
      (do_turn_completion ext (do_turn_hooked reg ext self p).1
        (do_turn_rooted reg ext (do_turn_hooked reg ext self p).1
          (do_turn_hooked reg ext self p).2)).1.is_active = false ∧
      ((self.do_turn reg ext p).act, (self.do_turn reg ext p).p) =
        ((ext.resume_backlog_activity {} (ext.call_finish (do_turn_hooked reg ext self p).1
            (do_turn_rooted reg ext (do_turn_hooked reg ext self p).1
              (do_turn_hooked reg ext self p).2)).2.2).1,
         ext.drop_invalid_inventory
          (ext.resume_backlog_activity {} (ext.call_finish (do_turn_hooked reg ext self p).1
            (do_turn_rooted reg ext (do_turn_hooked reg ext self p).1
              (do_turn_hooked reg ext self p).2)).2.2).2) ∧
      (∃ t, (self.do_turn reg ext p).trace = t ++ [effect.call_finish, effect.reset_activity,
        effect.resume_backlog_activity, effect.drop_invalid_inventory]) ∧
      ((ext.resume_backlog_activity {} (ext.call_finish (do_turn_hooked reg ext self p).1
          (do_turn_rooted reg ext (do_turn_hooked reg ext self p).1
            (do_turn_hooked reg ext self p).2)).2.2).1 = {} →
        (self.do_turn reg ext p).act.is_active = false)) := by
  rw [do_turn_of_finish reg ext self p hab hi]
  generalize do_turn_hooked reg ext self p = h
  have hstart : effect.call_finish ∉ do_turn_start_trace reg self := fun hm =>
    absurd (do_turn_start_trace_mem reg self _ hm) (by decide)
  have hroot : effect.call_finish ∉ do_turn_rooted_trace reg h.1 := fun hm => by
    rcases do_turn_rooted_trace_mem reg h.1 _ hm with h | h <;> cases h
  refine ⟨?_, ?_⟩
  · have hfin : effect.call_finish ∈ (do_turn_finish reg ext h.1 h.2).trace ↔
        effect.call_finish ∈ (do_turn_completion ext h.1 (do_turn_rooted reg ext h.1 h.2)).2.2 := by
      unfold do_turn_finish
      simp only
      split <;> simp [hroot]
    simp only [List.mem_append, List.mem_singleton, hstart, false_or, hfin,
      do_turn_completion_trace]
    by_cases hc : h.1.is_active = true ∧ h.1.moves_left ≤ 0
    · rw [if_pos hc]
      simp [hc]
    · rw [if_neg hc]
      simp [hc]
  · intro ha hm hf
    obtain ⟨e1, e2⟩ := do_turn_completion_of_false ext h.1 (do_turn_rooted reg ext h.1 h.2)
      ha hm hf
    have e3 := do_turn_completion_trace ext h.1 (do_turn_rooted reg ext h.1 h.2)
    rw [if_pos ⟨ha, hm⟩] at e3
    have hnull : (do_turn_completion ext h.1 (do_turn_rooted reg ext h.1 h.2)).1.is_active
        = false := by
      rw [e1]
      simp [player_activity.set_to_null, player_activity.is_active]
    have hfin : do_turn_finish reg ext h.1 h.2 =
        { act := (ext.resume_backlog_activity {}
            (ext.call_finish h.1 (do_turn_rooted reg ext h.1 h.2)).2.2).1
          p := ext.drop_invalid_inventory (ext.resume_backlog_activity {}
            (ext.call_finish h.1 (do_turn_rooted reg ext h.1 h.2)).2.2).2
          trace := do_turn_rooted_trace reg h.1 ++ [effect.call_finish] ++
            [effect.reset_activity, effect.resume_backlog_activity,
              effect.drop_invalid_inventory] } := by
      unfold do_turn_finish
      simp only [hnull, Bool.not_false, if_true, e2, e3]
    rw [hfin]
    refine ⟨hnull, rfl, ?_, ?_⟩
    · exact ⟨do_turn_start_trace reg self ++ [effect.call_do_turn] ++
        do_turn_rooted_trace reg h.1, by simp⟩
    · intro hdef
      simp only [hdef]
      rfl

/-- C16 as amended, on a burrowing turn that uses up the 500 moves left, with
nothing in the backlog: the finish hook is called, there is no finish
function, and the slot ends with the default empty record. -/
theorem do_turn_finish_hook_witness :
    effect.call_finish ∈ (burrow_fresh.do_turn example_registry example_collaborators
        { moves := 600, stamina := 500, stamina_max := 1000 }).trace ∧
      (burrow_fresh.do_turn example_registry example_collaborators
        { moves := 600, stamina := 500, stamina_max := 1000 }).act.is_active = false :=
  ⟨(do_turn_finish_hook example_registry example_collaborators burrow_fresh
      { moves := 600, stamina := 500, stamina_max := 1000 } (by decide) (by decide)).1.mpr
      (by decide),
   ((do_turn_finish_hook example_registry example_collaborators burrow_fresh
      { moves := 600, stamina := 500, stamina_max := 1000 } (by decide) (by decide)).2
      (by decide) (by decide) (by decide)).2.2.2 (by decide)⟩

/-- C12, the claim at a concrete turn: the slot holds the default empty record,
the actor has a budget of 100 and a paused burrowing activity in the backlog.
The turn calls `resume_backlog_activity`; afterwards the slot holds the
burrowing activity, so the instance is not empty, and the backlog is empty. -/
theorem do_turn_empty_counterexample :
    (({} : player_activity).do_turn example_registry example_collaborators
        { moves := 100, backlog := [burrow_paused] }).trace
        = [effect.call_do_turn, effect.reset_activity, effect.resume_backlog_activity,
            effect.drop_invalid_inventory] ∧
      (({} : player_activity).do_turn example_registry example_collaborators
        { moves := 100, backlog := [burrow_paused] }).act = burrow_paused ∧
      (({} : player_activity).do_turn example_registry example_collaborators
        { moves := 100, backlog := [burrow_paused] }).p.backlog = [] := by
  decide

/-- C12 as amended: on a turn that is not aborted, for an empty record whose
progress hook changes nothing, the only calls are the progress hook and then
the tail of lines 196-204, which puts a default record in the slot and runs
the backlog step and the inventory reconciliation on the actor that the time
conversion left; the record at the end of the turn is what the backlog step
left in the slot, empty when that is the default record; and the time
conversion leaves the actor as it was when the record has no move left and
the budget is a non-negative `int`. -/
theorem do_turn_empty (reg : activity_registry) (ext : collaborators)
    (self : player_activity) (p : player) (hnull : self.type = ACT_NULL)
    (hab : do_turn_aborted reg ext self p = false)
    (hhook : do_turn_hooked reg ext self p = do_turn_start reg ext self p) :
    (self.do_turn reg ext p).trace = [effect.call_do_turn, effect.reset_activity,
      effect.resume_backlog_activity, effect.drop_invalid_inventory] ∧
    ((self.do_turn reg ext p).act, (self.do_turn reg ext p).p) =
      ((ext.resume_backlog_activity {} (do_turn_convert reg self p).2).1,
       ext.drop_invalid_inventory
        (ext.resume_backlog_activity {} (do_turn_convert reg self p).2).2) ∧
    ((ext.resume_backlog_activity {} (do_turn_convert reg self p).2).1 = {} →
      (self.do_turn reg ext p).act.is_active = false) ∧
    (self.moves_left = 0 → is_int p.moves → 0 ≤ p.moves → (do_turn_convert reg self p).2 = p) := by
  have hina : self.is_active = false := by simp [player_activity.is_active, hnull]
  have hstart : do_turn_start reg ext self p = do_turn_convert reg self p := by
    simp [do_turn_start, hina]
  have hst : do_turn_start_trace reg self = [] := by
    simp [do_turn_start_trace, hina]
  have htype : (do_turn_start reg ext self p).1.type = ACT_NULL := by
    rw [(do_turn_start_frame reg ext self p).1, hnull]
  have hina2 : (do_turn_start reg ext self p).1.is_active = false := by
    simp [player_activity.is_active, htype]
  have hi : stamina_interrupt (decide ((do_turn_start reg ext self p).1.id = ACT_TRAVELLING))
      (do_turn_start reg ext self p).2.stamina (do_turn_hooked reg ext self p).2 = false := by
    rw [hhook]
    simp [stamina_interrupt, player_activity.id, htype]
  rw [do_turn_of_finish reg ext self p hab hi, hhook, hst]
  have hroot : do_turn_rooted reg ext (do_turn_start reg ext self p).1
      (do_turn_start reg ext self p).2 = (do_turn_start reg ext self p).2 := by
    simp [do_turn_rooted, hina2]
  have hrt : do_turn_rooted_trace reg (do_turn_start reg ext self p).1 = [] := by
    simp [do_turn_rooted_trace, hina2]
  have hcomp : do_turn_completion ext (do_turn_start reg ext self p).1
      (do_turn_start reg ext self p).2
      = ((do_turn_start reg ext self p).1, (do_turn_start reg ext self p).2, []) := by
    simp [do_turn_completion, hina2]
  have hfin : do_turn_finish reg ext (do_turn_start reg ext self p).1
      (do_turn_start reg ext self p).2 =
      { act := (ext.resume_backlog_activity {} (do_turn_start reg ext self p).2).1
        p := ext.drop_invalid_inventory
          (ext.resume_backlog_activity {} (do_turn_start reg ext self p).2).2
        trace := [effect.reset_activity, effect.resume_backlog_activity,
          effect.drop_invalid_inventory] } := by
    simp [do_turn_finish, hroot, hrt, hcomp, hina2]
  rw [hfin, hstart]
  refine ⟨by simp, rfl, ?_, ?_⟩
  · intro hdef
    simp only [hdef]
    rfl
  intro hml hr h0
  unfold is_int at hr
  have hw : wrap_int p.moves = p.moves := wrap_int_of_is_int hr
  have hw0 : wrap_int 0 = 0 := by decide
  have hp : ({ p with moves := p.moves } : player) = p := by cases p; rfl
  unfold do_turn_convert
  split
  · simp [hml, int_sub, int_mul, int_div, hw0, hw, hp]
  · split
    · split
      · rename_i hle
        rw [hml] at hle
        have hz : p.moves = 0 := le_antisymm hle h0
        simp only
        rw [← hz]
      · simp [hml, int_sub, hw, hp]
    · rfl

/-- C12 as amended, on the default empty record and an actor with a budget of
100 and nothing in the backlog: the slot ends with an empty record and the
time conversion leaves the actor as before. -/
theorem do_turn_empty_witness :
    (({} : player_activity).do_turn example_registry example_collaborators
        { moves := 100 }).act.is_active = false ∧
      do_turn_convert example_registry {} { moves := 100 } = ({}, { moves := 100 }) :=
  ⟨(do_turn_empty example_registry example_collaborators {} { moves := 100 } rfl (by decide)
      rfl).2.2.1 (by decide),
   Prod.ext rfl ((do_turn_empty example_registry example_collaborators {} { moves := 100 } rfl
      (by decide) rfl).2.2.2 rfl (by decide) (by decide))⟩

end CDDA
